import Mathlib

/-!
# drivers/w1/masters/w1-gpio.c : the GPIO 1-Wire bus master driver

A shallow embedding of the driver.  The machine state (`Kernel`) carries

* `trace`: the calls the driver makes on the GPIO capability, the 1-Wire
  protocol engine and the external pull-up callback, oldest first;
* `mem`: the live heap objects (configuration records and bus master handles),
  addressed by natural numbers, `0` being the NULL pointer;
* `platform_data`, `driver_data`: the two pointer fields of the platform device.

The outcomes of the calls whose implementation lives outside the driver
(device-tree reads, `kzalloc`, `gpio_request`, `gpio_get_value`,
`w1_add_master_device`) are supplied by an `Env`.  A driver function returns
`none` when the C code would dereference or free an invalid pointer.
-/

namespace W1Gpio

/-! ## Data model -/

/-- The errno value ENOMEM; the driver returns its negation. -/
def ENOMEM : Int := 12

/-- The C type `u8`. -/
abbrev u8 := Fin 256

/-- Truncation of a device-tree cell to the C type `u32`. -/
def u32 (n : Nat) : Nat := n % 2 ^ 32

/-- The two functions the driver can store in `master->write_bit`. -/
inductive write_bit_fn
  | w1_gpio_write_bit_dir
  | w1_gpio_write_bit_val
  deriving DecidableEq, Repr

/-- The function the driver stores in `master->read_bit`. -/
inductive read_bit_fn
  | w1_gpio_read_bit
  deriving DecidableEq, Repr

/-- Modelled from the spec: `struct w1_gpio_platform_data` (declared in
`linux/w1-gpio.h`), the Pin Configuration record, with the three fields the
driver uses.  `enable_external_pullup` is `true` when the callback pointer is
not NULL. -/
structure w1_gpio_platform_data where
  pin : Nat
  is_open_drain : Nat
  enable_external_pullup : Bool
  deriving DecidableEq, Repr

/-- Modelled from the spec: `struct w1_bus_master` (declared in `../w1_int.h`),
the Bus Master Handle, with the three fields the driver fills in.  A function
pointer left NULL by `kzalloc` is `none`. -/
structure w1_bus_master where
  data : Nat
  read_bit : Option read_bit_fn
  write_bit : Option write_bit_fn
  deriving DecidableEq, Repr

/-- A call made by the driver on the GPIO capability, on the protocol engine or
on the external pull-up callback, with its arguments (and its result, where the
driver looks at it). -/
inductive Event
  | gpio_request (gpio : Nat) (ret : Int)
  | gpio_free (gpio : Nat)
  | gpio_direction_input (gpio : Nat)
  | gpio_direction_output (gpio : Nat) (value : Int)
  | gpio_set_value (gpio : Nat) (value : Int)
  | gpio_get_value (gpio : Nat) (level : Int)
  | w1_add_master_device (master : w1_bus_master) (ret : Int)
  | w1_remove_master_device (master : w1_bus_master)
  | enable_external_pullup (enable : Int)
  deriving DecidableEq, Repr

/-- A heap object. -/
inductive Cell
  | pdata (d : w1_gpio_platform_data)
  | master (m : w1_bus_master)
  deriving DecidableEq, Repr

/-- The machine state the driver runs on. -/
structure Kernel where
  trace : List Event
  mem : List (Nat × Cell)
  brk : Nat
  platform_data : Nat
  driver_data : Nat
  deriving DecidableEq, Repr

/-- The outcomes of the calls implemented outside the driver.
`of_property_read_u32 key` is the return code and the value read from the
device node; `kzalloc_pdata` and `kzalloc_master` say whether the two
allocations succeed. -/
structure Env where
  of_property_read_u32 : String → Int × Nat
  kzalloc_pdata : Bool
  kzalloc_master : Bool
  gpio_request : Nat → Int
  gpio_get_value : Nat → Int
  w1_add_master_device : w1_bus_master → Int

/-! ## Memory -/

/-- The object at address `a`. -/
def load (a : Nat) : List (Nat × Cell) → Option Cell
  | [] => none
  | (b, c) :: rest => if a = b then some c else load a rest

/-- Dereference of a `struct w1_gpio_platform_data *`. -/
def Kernel.pdata (k : Kernel) (a : Nat) : Option w1_gpio_platform_data :=
  match load a k.mem with
  | some (Cell.pdata d) => some d
  | _ => none

/-- Dereference of a `struct w1_bus_master *`. -/
def Kernel.master (k : Kernel) (a : Nat) : Option w1_bus_master :=
  match load a k.mem with
  | some (Cell.master m) => some m
  | _ => none

/-- The heap after the object at address `a` is overwritten with `c`. -/
def store (a : Nat) (c : Cell) : List (Nat × Cell) → List (Nat × Cell)
  | [] => []
  | (b, c0) :: rest => if a = b then (a, c) :: rest else (b, c0) :: store a c rest

/-- A store through a pointer (the callers dereference it first). -/
def Kernel.store (k : Kernel) (a : Nat) (c : Cell) : Kernel :=
  { k with mem := W1Gpio.store a c k.mem }

/-- The call `kzalloc(sizeof ..., GFP_KERNEL)`: a fresh zeroed object, or NULL. -/
def kzalloc (ok : Bool) (zeroed : Cell) (k : Kernel) : Nat × Kernel :=
  if ok then (k.brk, { k with mem := (k.brk, zeroed) :: k.mem, brk := k.brk + 1 })
  else (0, k)

/-- The call `kfree(a)`: nothing for NULL, a fault for a pointer that is not live. -/
def kfree (a : Nat) (k : Kernel) : Option Kernel :=
  if a = 0 then some k
  else
    match load a k.mem with
    | none => none
    | some _ => some { k with mem := k.mem.filter (fun x => !decide (x.1 = a)) }

/-- The zero-filled configuration record. -/
def zeroed_pdata : w1_gpio_platform_data :=
  { pin := 0, is_open_drain := 0, enable_external_pullup := false }

/-- The zero-filled bus master handle. -/
def zeroed_master : w1_bus_master :=
  { data := 0, read_bit := none, write_bit := none }

/-! ## Calls on the external capabilities -/

/-- Record a call. -/
def Kernel.call (k : Kernel) (e : Event) : Kernel :=
  { k with trace := k.trace ++ [e] }

def gpio_request (env : Env) (gpio : Nat) (k : Kernel) : Int × Kernel :=
  (env.gpio_request gpio, k.call (Event.gpio_request gpio (env.gpio_request gpio)))

def gpio_free (gpio : Nat) (k : Kernel) : Kernel :=
  k.call (Event.gpio_free gpio)

def gpio_direction_input (gpio : Nat) (k : Kernel) : Kernel :=
  k.call (Event.gpio_direction_input gpio)

def gpio_direction_output (gpio : Nat) (value : Int) (k : Kernel) : Kernel :=
  k.call (Event.gpio_direction_output gpio value)

def gpio_set_value (gpio : Nat) (value : Int) (k : Kernel) : Kernel :=
  k.call (Event.gpio_set_value gpio value)

def gpio_get_value (env : Env) (gpio : Nat) (k : Kernel) : Int × Kernel :=
  (env.gpio_get_value gpio, k.call (Event.gpio_get_value gpio (env.gpio_get_value gpio)))

def w1_add_master_device (env : Env) (master : w1_bus_master) (k : Kernel) : Int × Kernel :=
  (env.w1_add_master_device master,
    k.call (Event.w1_add_master_device master (env.w1_add_master_device master)))

def w1_remove_master_device (master : w1_bus_master) (k : Kernel) : Kernel :=
  k.call (Event.w1_remove_master_device master)

/-- The statement `if (pdata->enable_external_pullup) pdata->enable_external_pullup(enable);`. -/
def enable_external_pullup (pdata : w1_gpio_platform_data) (enable : Int) (k : Kernel) : Kernel :=
  if pdata.enable_external_pullup then k.call (Event.enable_external_pullup enable) else k

/-! ## The driver -/

/-- Lines 31-39. -/
def w1_gpio_write_bit_dir (data : Nat) (bit : u8) (k : Kernel) : Option Kernel :=
  match k.pdata data with
  | none => none
  | some pdata =>
    if bit ≠ 0 then some (gpio_direction_input pdata.pin k)
    else some (gpio_direction_output pdata.pin 0 k)

/-- Lines 41-46. -/
def w1_gpio_write_bit_val (data : Nat) (bit : u8) (k : Kernel) : Option Kernel :=
  match k.pdata data with
  | none => none
  | some pdata => some (gpio_set_value pdata.pin (bit.val : Int) k)

/-- Lines 48-53. -/
def w1_gpio_read_bit (env : Env) (data : Nat) (k : Kernel) : Option (u8 × Kernel) :=
  match k.pdata data with
  | none => none
  | some pdata =>
    let r := gpio_get_value env pdata.pin k
    some (if r.1 ≠ 0 then 1 else 0, r.2)

/-- Lines 55-79.  `of_property_read_u32` writes its output only when it
returns 0. -/
def w1_gpio_probe_dt (env : Env) (pdata : Nat) (k : Kernel) : Option (Int × Kernel) :=
  let r1 := env.of_property_read_u32 "qcom,gpio-pin"
  if r1.1 ≠ 0 then some (r1.1, k)
  else
    match k.pdata pdata with
    | none => none
    | some d =>
      let d1 := { d with pin := u32 r1.2 }
      let k1 := k.store pdata (Cell.pdata d1)
      let r2 := env.of_property_read_u32 "qcom,is-open-drain"
      if r2.1 ≠ 0 then some (r2.1, k1)
      else
        let is_open_drain := u32 r2.2
        some (0, k1.store pdata
          (Cell.pdata { d1 with is_open_drain := if is_open_drain ≠ 0 then 1 else 0 }))

/-- The label `free_pdata` (lines 137-140). -/
def free_pdata (pdata : Nat) (err : Int) (k : Kernel) : Option (Int × Kernel) :=
  match kfree pdata k with
  | none => none
  | some k1 => some (err, k1)

/-- The label `free_master` (lines 135-140). -/
def free_master (master pdata : Nat) (err : Int) (k : Kernel) : Option (Int × Kernel) :=
  match kfree master k with
  | none => none
  | some k1 => free_pdata pdata err k1

/-- The label `free_gpio` (lines 133-140). -/
def free_gpio (master pdata : Nat) (err : Int) (k : Kernel) : Option (Int × Kernel) :=
  match k.pdata pdata with
  | none => none
  | some d => free_master master pdata err (gpio_free d.pin k)

/-- Lines 122-131: registration, pull-up, driver data. -/
def w1_gpio_probe_register (env : Env) (master pdata : Nat) (k : Kernel) :
    Option (Int × Kernel) :=
  match k.master master with
  | none => none
  | some m =>
    let r := w1_add_master_device env m k
    if r.1 ≠ 0 then free_gpio master pdata r.1 r.2
    else
      match r.2.pdata pdata with
      | none => none
      | some d =>
        let k1 := enable_external_pullup d 1 r.2
        some (0, { k1 with driver_data := master })

/-- Lines 107-120: pin request, handle set-up, initial pin configuration. -/
def w1_gpio_probe_gpio (env : Env) (master pdata : Nat) (k : Kernel) :
    Option (Int × Kernel) :=
  match k.pdata pdata with
  | none => none
  | some d =>
    let r := gpio_request env d.pin k
    if r.1 ≠ 0 then free_master master pdata r.1 r.2
    else
      match r.2.master master with
      | none => none
      | some m0 =>
        let m1 := { m0 with data := pdata, read_bit := some read_bit_fn.w1_gpio_read_bit }
        if d.is_open_drain ≠ 0 then
          let k1 := gpio_direction_output d.pin 1 r.2
          w1_gpio_probe_register env master pdata
            (k1.store master (Cell.master
              { m1 with write_bit := some write_bit_fn.w1_gpio_write_bit_val }))
        else
          let k1 := gpio_direction_input d.pin r.2
          w1_gpio_probe_register env master pdata
            (k1.store master (Cell.master
              { m1 with write_bit := some write_bit_fn.w1_gpio_write_bit_dir }))

/-- Lines 95-105: device-tree parsing and allocation of the handle. -/
def w1_gpio_probe_parse (env : Env) (pdata : Nat) (k : Kernel) : Option (Int × Kernel) :=
  match w1_gpio_probe_dt env pdata k with
  | none => none
  | some (err, k1) =>
    if err ≠ 0 then free_pdata pdata err k1
    else
      let a := kzalloc env.kzalloc_master (Cell.master zeroed_master) k1
      if a.1 = 0 then some (-ENOMEM, a.2)
      else w1_gpio_probe_gpio env a.1 pdata a.2

/-- Lines 81-141. -/
def w1_gpio_probe (env : Env) (k : Kernel) : Option (Int × Kernel) :=
  if k.platform_data = 0 then
    let a := kzalloc env.kzalloc_pdata (Cell.pdata zeroed_pdata) k
    if a.1 = 0 then some (-ENOMEM, a.2)
    else w1_gpio_probe_parse env a.1 { a.2 with platform_data := a.1 }
  else w1_gpio_probe_parse env k.platform_data k

/-- Lines 143-156. -/
def w1_gpio_remove (k : Kernel) : Option (Int × Kernel) :=
  match k.pdata k.platform_data with
  | none => none
  | some pdata =>
    let k1 := enable_external_pullup pdata 0 k
    match k1.master k.driver_data with
    | none => none
    | some m =>
      let k2 := gpio_free pdata.pin (w1_remove_master_device m k1)
      match kfree k.driver_data k2 with
      | none => none
      | some k3 => some (0, k3)

/-- Lines 160-168 (built with CONFIG_PM). -/
def w1_gpio_suspend (k : Kernel) : Option (Int × Kernel) :=
  match k.pdata k.platform_data with
  | none => none
  | some pdata => some (0, enable_external_pullup pdata 0 k)

/-- Lines 170-178 (built with CONFIG_PM). -/
def w1_gpio_resume (k : Kernel) : Option (Int × Kernel) :=
  match k.pdata k.platform_data with
  | none => none
  | some pdata => some (0, enable_external_pullup pdata 1 k)

/-! ## The GPIO capability, as the spec describes it -/

/-- The direction of a pin. -/
inductive Direction
  | input
  | output
  deriving DecidableEq, Repr

/-- The configuration of one pin: its direction and its output value. -/
structure PinState where
  dir : Direction
  value : Int
  deriving DecidableEq, Repr

/-- Modelled from the spec: the GPIO capability (section 6), whose code is not
part of the driver: `set_direction(pin, input)` changes the direction of that
pin, `set_direction(pin, output)` with an initial value changes its direction
and output value, `set_output_value(pin, bit)` changes its output value, and
no other call changes the configuration of any pin. -/
def gpio_apply (e : Event) (g : Nat → PinState) : Nat → PinState :=
  match e with
  | Event.gpio_direction_input gpio =>
    fun q => if q = gpio then { g q with dir := Direction.input } else g q
  | Event.gpio_direction_output gpio value =>
    fun q => if q = gpio then { dir := Direction.output, value := value } else g q
  | Event.gpio_set_value gpio value =>
    fun q => if q = gpio then { g q with value := value } else g q
  | _ => g

/-- The pin configurations after a sequence of calls. -/
def gpio_run (tr : List Event) (g : Nat → PinState) : Nat → PinState :=
  tr.foldl (fun acc e => gpio_apply e acc) g

/-! ## The protocol engine and the host framework, as the spec describes them -/

/-- Modelled from the spec: the protocol engine (section 6), whose code is not
part of the driver, calls the `write_bit` entry point of a handle with the
handle's opaque context. -/
def w1_write_bit (master : Nat) (bit : u8) (k : Kernel) : Option Kernel :=
  match k.master master with
  | none => none
  | some m =>
    match m.write_bit with
    | none => none
    | some write_bit_fn.w1_gpio_write_bit_dir => w1_gpio_write_bit_dir m.data bit k
    | some write_bit_fn.w1_gpio_write_bit_val => w1_gpio_write_bit_val m.data bit k

/-- Modelled from the spec: the protocol engine (section 6) calls the
`read_bit` entry point of a handle with the handle's opaque context. -/
def w1_read_bit (env : Env) (master : Nat) (k : Kernel) : Option (u8 × Kernel) :=
  match k.master master with
  | none => none
  | some m =>
    match m.read_bit with
    | none => none
    | some read_bit_fn.w1_gpio_read_bit => w1_gpio_read_bit env m.data k

/-- A bit operation requested by the protocol engine. -/
inductive BitOp
  | write_bit (bit : u8)
  | read_bit
  deriving DecidableEq, Repr

/-- The call on the GPIO capability that a bit operation makes on pin `gpio`
under the open-drain strategy. -/
def BitOp.open_drain_call (env : Env) (gpio : Nat) : BitOp → Event
  | BitOp.write_bit bit => Event.gpio_set_value gpio (bit.val : Int)
  | BitOp.read_bit => Event.gpio_get_value gpio (env.gpio_get_value gpio)

/-- A finite sequence of bit operations on the handle at `master`. -/
def run_bit_ops (env : Env) (master : Nat) : List BitOp → Kernel → Option Kernel
  | [], k => some k
  | BitOp.write_bit bit :: rest, k =>
    match w1_write_bit master bit k with
    | none => none
    | some k1 => run_bit_ops env master rest k1
  | BitOp.read_bit :: rest, k =>
    match w1_read_bit env master k with
    | none => none
    | some r => run_bit_ops env master rest r.2

/-- Modelled from the spec: the effect of one call on the list of pins the
adapter holds (section 6: `acquire(pin_id)` gives ownership when it succeeds,
`release(pin_id)` gives it up). -/
def pins_held_step (acc : List Nat) (e : Event) : List Nat :=
  match e with
  | Event.gpio_request gpio ret => if ret = 0 then gpio :: acc else acc
  | Event.gpio_free gpio => acc.erase gpio
  | _ => acc

/-- The pins the adapter holds after a sequence of calls. -/
def pins_held (tr : List Event) : List Nat :=
  tr.foldl pins_held_step []

/-- Modelled from the spec: the effect of one call on the list of handles
registered with the protocol engine (section 6: `register(handle)` registers
when it succeeds, `unregister(handle)` deregisters). -/
def registered_step (acc : List w1_bus_master) (e : Event) : List w1_bus_master :=
  match e with
  | Event.w1_add_master_device m ret => if ret = 0 then m :: acc else acc
  | Event.w1_remove_master_device m => acc.erase m
  | _ => acc

/-- The handles registered with the protocol engine after a sequence of calls. -/
def registered (tr : List Event) : List w1_bus_master :=
  tr.foldl registered_step []

/-- Modelled from the spec: the effect of one call on the resource counter of
pin `gpio` (section 8): a successful acquire adds one, a release removes one,
and a release while the counter is zero (a double free) is an error, `none`. -/
def pin_counter_step (gpio : Nat) (acc : Option Nat) (e : Event) : Option Nat :=
  match e with
  | Event.gpio_request g ret =>
    if g = gpio ∧ ret = 0 then acc.map (fun n => n + 1) else acc
  | Event.gpio_free g =>
    if g = gpio then
      match acc with
      | some (n + 1) => some n
      | _ => none
    else acc
  | _ => acc

/-- The resource counter of pin `gpio` after a sequence of calls, starting
from `held`. -/
def pin_counter (gpio : Nat) (tr : List Event) (held : Nat) : Option Nat :=
  tr.foldl (pin_counter_step gpio) (some held)

/-- The number of `gpio_request` calls on pin `gpio`. -/
def request_count (gpio : Nat) (tr : List Event) : Nat :=
  tr.countP (fun e =>
    match e with
    | Event.gpio_request g _ => decide (g = gpio)
    | _ => false)

/-- The number of `gpio_free` calls on pin `gpio`. -/
def free_count (gpio : Nat) (tr : List Event) : Nat :=
  tr.countP (fun e =>
    match e with
    | Event.gpio_free g => decide (g = gpio)
    | _ => false)

/-- Attach immediately followed by detach (detach is not called when attach
fails). -/
def attach_detach (env : Env) (k : Kernel) : Option Kernel :=
  match w1_gpio_probe env k with
  | none => none
  | some (err, k1) =>
    if err ≠ 0 then some k1
    else
      match w1_gpio_remove k1 with
      | none => none
      | some r => some r.2

/-- Attach immediately followed by detach, `n` times. -/
def attach_detach_times (env : Env) : Nat → Kernel → Option Kernel
  | 0, k => some k
  | n + 1, k =>
    match attach_detach env k with
    | none => none
    | some k1 => attach_detach_times env n k1

/-- Modelled from the spec: the states of the Bus Master Adapter (section 4.2). -/
inductive Lifecycle
  | Unattached
  | Active
  | Suspended
  deriving DecidableEq, Repr

/-- A lifecycle entry point called by the host driver framework. -/
inductive Op
  | attach (env : Env)
  | detach
  | suspend
  | resume

/-- Modelled from the spec: the state machine of section 4.2 driving the four
entry points of the driver.  An operation the state machine does not allow in
the current state, or one that faults, gives `none`. -/
def lifecycle_step : Op → Lifecycle × Kernel → Option (Lifecycle × Kernel)
  | Op.attach env, (Lifecycle.Unattached, k) =>
    match w1_gpio_probe env k with
    | none => none
    | some (err, k1) =>
      some (if err = 0 then Lifecycle.Active else Lifecycle.Unattached, k1)
  | Op.detach, (Lifecycle.Active, k) =>
    match w1_gpio_remove k with
    | none => none
    | some r => some (Lifecycle.Unattached, r.2)
  | Op.detach, (Lifecycle.Suspended, k) =>
    match w1_gpio_remove k with
    | none => none
    | some r => some (Lifecycle.Unattached, r.2)
  | Op.suspend, (Lifecycle.Active, k) =>
    match w1_gpio_suspend k with
    | none => none
    | some r => some (Lifecycle.Suspended, r.2)
  | Op.resume, (Lifecycle.Suspended, k) =>
    match w1_gpio_resume k with
    | none => none
    | some r => some (Lifecycle.Active, r.2)
  | _, _ => none

/-- A sequence of lifecycle operations. -/
def lifecycle_run : List Op → Lifecycle × Kernel → Option (Lifecycle × Kernel)
  | [], s => some s
  | op :: rest, s =>
    match lifecycle_step op s with
    | none => none
    | some s1 => lifecycle_run rest s1

/-! ## Descriptions of what attach and detach do -/

/-- The call that configures the pin at attach: output driving 1 under the
open-drain strategy, input under the direction-switching strategy. -/
def configure_call (d : w1_gpio_platform_data) : Event :=
  if d.is_open_drain ≠ 0 then Event.gpio_direction_output d.pin 1
  else Event.gpio_direction_input d.pin

/-- The handle attach registers for the configuration record `d` at address
`pdata`: its context is the record, its `read_bit` is `w1_gpio_read_bit`, and
its `write_bit` is chosen by the open-drain flag. -/
def bound_master (pdata : Nat) (d : w1_gpio_platform_data) : w1_bus_master :=
  { data := pdata
    read_bit := some read_bit_fn.w1_gpio_read_bit
    write_bit :=
      if d.is_open_drain ≠ 0 then some write_bit_fn.w1_gpio_write_bit_val
      else some write_bit_fn.w1_gpio_write_bit_dir }

/-- The calls on the external pull-up callback: one when it is present, none
when it is absent. -/
def pullup_calls (d : w1_gpio_platform_data) (enable : Int) : List Event :=
  if d.enable_external_pullup then [Event.enable_external_pullup enable] else []

/-- The configuration record after the device tree has been parsed into `d`. -/
def parsed (env : Env) (d : w1_gpio_platform_data) : w1_gpio_platform_data :=
  { pin := u32 (env.of_property_read_u32 "qcom,gpio-pin").2
    is_open_drain := if u32 (env.of_property_read_u32 "qcom,is-open-drain").2 ≠ 0 then 1 else 0
    enable_external_pullup := d.enable_external_pullup }

/-- The calls of a successful attach, for the configuration record `d` at
address `pdata`: request the pin, configure it, register the handle, then
enable the external pull-up when the callback is present. -/
def attach_calls (pdata : Nat) (d : w1_gpio_platform_data) : List Event :=
  [Event.gpio_request d.pin 0, configure_call d,
    Event.w1_add_master_device (bound_master pdata d) 0] ++ pullup_calls d 1

/-- The calls of detach: disable the external pull-up when the callback is
present, deregister the handle, release the pin. -/
def detach_calls (m : w1_bus_master) (d : w1_gpio_platform_data) : List Event :=
  pullup_calls d 0 ++ [Event.w1_remove_master_device m, Event.gpio_free d.pin]

/-- The address of the configuration record attach works on: the platform
data when the board supplied some, the record attach allocates otherwise. -/
def Kernel.config_addr (k : Kernel) : Nat :=
  if k.platform_data = 0 then k.brk else k.platform_data

/-- Attach can obtain its configuration record, whose contents before parsing
are `d0`: either the platform data pointer is NULL and the allocation of a
zeroed record succeeds, or the pointer designates a live record.  The
allocator hands out fresh non-NULL addresses. -/
def config_available (env : Env) (k : Kernel) (d0 : w1_gpio_platform_data) : Prop :=
  k.brk ≠ 0 ∧
    ((k.platform_data = 0 ∧ env.kzalloc_pdata = true ∧ d0 = zeroed_pdata) ∨
     (k.platform_data ≠ 0 ∧ k.platform_data < k.brk ∧ k.pdata k.platform_data = some d0))

instance (env : Env) (k : Kernel) (d0 : w1_gpio_platform_data) :
    Decidable (config_available env k d0) := by
  unfold config_available
  infer_instance

/-- Both required device-tree keys can be read. -/
def config_readable (env : Env) : Prop :=
  (env.of_property_read_u32 "qcom,gpio-pin").1 = 0 ∧
    (env.of_property_read_u32 "qcom,is-open-drain").1 = 0

instance (env : Env) : Decidable (config_readable env) := by
  unfold config_readable
  infer_instance

/-- The calls of `n` rounds of attach immediately followed by detach. -/
def round_trip_calls (pdata : Nat) (d : w1_gpio_platform_data) : Nat → List Event
  | 0 => []
  | n + 1 =>
    attach_calls pdata d ++ detach_calls (bound_master pdata d) d ++ round_trip_calls pdata d n

/-- The error code of the device-tree parser: that of the first read that fails. -/
def dt_error (env : Env) : Int :=
  if (env.of_property_read_u32 "qcom,gpio-pin").1 ≠ 0 then
    (env.of_property_read_u32 "qcom,gpio-pin").1
  else (env.of_property_read_u32 "qcom,is-open-drain").1

/-- The invariant of the lifecycle: in `Unattached` no handle is registered and
no pin is held; in `Active` and `Suspended` the configuration record and the
handle are live, exactly that handle is registered and exactly the pin of the
record is held. -/
def lifecycle_inv : Lifecycle × Kernel → Prop
  | (Lifecycle.Unattached, k) => registered k.trace = [] ∧ pins_held k.trace = []
  | (_, k) =>
    ∃ d m, k.pdata k.platform_data = some d ∧ k.master k.driver_data = some m ∧
      registered k.trace = [m] ∧ pins_held k.trace = [d.pin]

/-! ## Sample inputs -/

/-- A machine with no heap object, no call made yet and no platform data. -/
def boot : Kernel :=
  { trace := [], mem := [], brk := 1, platform_data := 0, driver_data := 0 }

/-- A device node with pin 5 and the given open-drain cell, on a machine where
every allocation, the pin request and the registration succeed. -/
def sample_env (open_drain : Nat) : Env :=
  { of_property_read_u32 := fun key =>
      if key = "qcom,gpio-pin" then (0, 5)
      else if key = "qcom,is-open-drain" then (0, open_drain)
      else (-22, 0)
    kzalloc_pdata := true
    kzalloc_master := true
    gpio_request := fun _ => 0
    gpio_get_value := fun _ => 1
    w1_add_master_device := fun _ => 0 }

/-- The sample device node on a machine where the allocation of the bus
master handle fails. -/
def handle_oom_env : Env :=
  { of_property_read_u32 := fun key =>
      if key = "qcom,gpio-pin" then (0, 5)
      else if key = "qcom,is-open-drain" then (0, 1)
      else (-22, 0)
    kzalloc_pdata := true
    kzalloc_master := false
    gpio_request := fun _ => 0
    gpio_get_value := fun _ => 1
    w1_add_master_device := fun _ => 0 }

/-- The sample device node on a machine where the protocol engine refuses
the registration with code -5. -/
def refusing_env : Env :=
  { of_property_read_u32 := fun key =>
      if key = "qcom,gpio-pin" then (0, 5)
      else if key = "qcom,is-open-drain" then (0, 1)
      else (-22, 0)
    kzalloc_pdata := true
    kzalloc_master := true
    gpio_request := fun _ => 0
    gpio_get_value := fun _ => 1
    w1_add_master_device := fun _ => -5 }

/-- A device node without the open-drain key. -/
def missing_key_env : Env :=
  { of_property_read_u32 := fun key =>
      if key = "qcom,gpio-pin" then (0, 5) else (-22, 0)
    kzalloc_pdata := true
    kzalloc_master := true
    gpio_request := fun _ => 0
    gpio_get_value := fun _ => 1
    w1_add_master_device := fun _ => 0 }

/-- The handle of the sample adapters. -/
def sample_master (write_bit : write_bit_fn) : w1_bus_master :=
  { data := 1, read_bit := some read_bit_fn.w1_gpio_read_bit, write_bit := some write_bit }

/-- The machine `boot` after a successful attach with `sample_env 0`
(direction-switching strategy). -/
def attached_dir : Kernel :=
  { trace := [Event.gpio_request 5 0, Event.gpio_direction_input 5,
      Event.w1_add_master_device (sample_master write_bit_fn.w1_gpio_write_bit_dir) 0]
    mem := [(2, Cell.master (sample_master write_bit_fn.w1_gpio_write_bit_dir)),
      (1, Cell.pdata { pin := 5, is_open_drain := 0, enable_external_pullup := false })]
    brk := 3
    platform_data := 1
    driver_data := 2 }

/-- The machine `boot` after a successful attach with `sample_env 1` (open-drain
strategy). -/
def attached_val : Kernel :=
  { trace := [Event.gpio_request 5 0, Event.gpio_direction_output 5 1,
      Event.w1_add_master_device (sample_master write_bit_fn.w1_gpio_write_bit_val) 0]
    mem := [(2, Cell.master (sample_master write_bit_fn.w1_gpio_write_bit_val)),
      (1, Cell.pdata { pin := 5, is_open_drain := 1, enable_external_pullup := false })]
    brk := 3
    platform_data := 1
    driver_data := 2 }

/-- The machine `board` after a successful attach with `sample_env 1`. -/
def attached_board : Kernel :=
  { trace := [Event.gpio_request 5 0, Event.gpio_direction_output 5 1,
      Event.w1_add_master_device (sample_master write_bit_fn.w1_gpio_write_bit_val) 0,
      Event.enable_external_pullup 1]
    mem := [(2, Cell.master (sample_master write_bit_fn.w1_gpio_write_bit_val)),
      (1, Cell.pdata { pin := 5, is_open_drain := 1, enable_external_pullup := true })]
    brk := 3
    platform_data := 1
    driver_data := 2 }

/-- The machine `attached_board` after suspend, resume and suspend. -/
def suspended_board : Kernel :=
  { attached_board with
    trace := attached_board.trace ++
      [Event.enable_external_pullup 0, Event.enable_external_pullup 1,
        Event.enable_external_pullup 0] }

/-- Every pin an input with output value 0. -/
def pins_idle : Nat → PinState :=
  fun _ => { dir := Direction.input, value := 0 }

/-- A machine whose platform data was supplied by the board, with a pull-up
callback. -/
def board : Kernel :=
  { trace := [],
    mem := [(1, Cell.pdata { pin := 0, is_open_drain := 0, enable_external_pullup := true })],
    brk := 2, platform_data := 1, driver_data := 0 }

/-! ## Memory lemmas -/

theorem load_store (a b : Nat) (c : Cell) (m : List (Nat × Cell)) :
    load b (store a c m) = if b = a then (load a m).map (fun _ => c) else load b m := by
  induction m with
  | nil => simp [store, load]
  | cons x rest ih =>
    obtain ⟨x1, x2⟩ := x
    by_cases hax : a = x1
    · subst hax
      by_cases hba : b = a
      · simp [store, load, hba]
      · simp [store, load, hba]
    · by_cases hba : b = a
      · subst hba
        simp [store, load, hax, ih]
      · simp [store, load, hax, ih, hba]

theorem load_filter (a b : Nat) (m : List (Nat × Cell)) :
    load b (m.filter (fun x => !decide (x.1 = a))) = if b = a then none else load b m := by
  induction m with
  | nil => simp [load]
  | cons x rest ih =>
    obtain ⟨x1, x2⟩ := x
    by_cases hxa : x1 = a
    · subst hxa
      by_cases hb : b = x1
      · subst hb
        simpa [List.filter, load] using ih
      · simp [List.filter, load, ih, hb]
    · by_cases hb : b = a
      · subst hb
        have hne : ¬ b = x1 := fun h => hxa h.symm
        simp [List.filter, load, ih, hxa, hne]
      · simp [List.filter, load, ih, hxa, hb]

theorem gpio_run_append (tr : List Event) (e : Event) (g : Nat → PinState) :
    gpio_run (tr ++ [e]) g = gpio_apply e (gpio_run tr g) := by
  simp [gpio_run, List.foldl_append]


/-! ## Basic facts about the state -/

@[simp] theorem call_trace (k : Kernel) (e : Event) : (k.call e).trace = k.trace ++ [e] := rfl

@[simp] theorem call_mem (k : Kernel) (e : Event) : (k.call e).mem = k.mem := rfl

@[simp] theorem call_platform_data (k : Kernel) (e : Event) :
    (k.call e).platform_data = k.platform_data := rfl

@[simp] theorem call_driver_data (k : Kernel) (e : Event) :
    (k.call e).driver_data = k.driver_data := rfl

@[simp] theorem call_brk (k : Kernel) (e : Event) : (k.call e).brk = k.brk := rfl

@[simp] theorem call_pdata (k : Kernel) (e : Event) (a : Nat) :
    (k.call e).pdata a = k.pdata a := rfl

@[simp] theorem call_master (k : Kernel) (e : Event) (a : Nat) :
    (k.call e).master a = k.master a := rfl

@[simp] theorem store_trace (k : Kernel) (a : Nat) (c : Cell) :
    (k.store a c).trace = k.trace := rfl

@[simp] theorem store_platform_data (k : Kernel) (a : Nat) (c : Cell) :
    (k.store a c).platform_data = k.platform_data := rfl

@[simp] theorem store_driver_data (k : Kernel) (a : Nat) (c : Cell) :
    (k.store a c).driver_data = k.driver_data := rfl

@[simp] theorem store_brk (k : Kernel) (a : Nat) (c : Cell) :
    (k.store a c).brk = k.brk := rfl

theorem pullup_trace (d : w1_gpio_platform_data) (n : Int) (k : Kernel) :
    (enable_external_pullup d n k).trace = k.trace ++ pullup_calls d n := by
  unfold enable_external_pullup pullup_calls
  split <;> simp

@[simp] theorem pullup_mem (d : w1_gpio_platform_data) (n : Int) (k : Kernel) :
    (enable_external_pullup d n k).mem = k.mem := by
  unfold enable_external_pullup
  split <;> rfl

@[simp] theorem pullup_platform_data (d : w1_gpio_platform_data) (n : Int) (k : Kernel) :
    (enable_external_pullup d n k).platform_data = k.platform_data := by
  unfold enable_external_pullup
  split <;> rfl

@[simp] theorem pullup_driver_data (d : w1_gpio_platform_data) (n : Int) (k : Kernel) :
    (enable_external_pullup d n k).driver_data = k.driver_data := by
  unfold enable_external_pullup
  split <;> rfl

@[simp] theorem pullup_brk (d : w1_gpio_platform_data) (n : Int) (k : Kernel) :
    (enable_external_pullup d n k).brk = k.brk := by
  unfold enable_external_pullup
  split <;> rfl

@[simp] theorem pullup_pdata (d : w1_gpio_platform_data) (n : Int) (k : Kernel) (a : Nat) :
    (enable_external_pullup d n k).pdata a = k.pdata a := by
  simp [Kernel.pdata]

@[simp] theorem pullup_master (d : w1_gpio_platform_data) (n : Int) (k : Kernel) (a : Nat) :
    (enable_external_pullup d n k).master a = k.master a := by
  simp [Kernel.master]

theorem pdata_load {k : Kernel} {a : Nat} {d : w1_gpio_platform_data}
    (h : k.pdata a = some d) : load a k.mem = some (Cell.pdata d) := by
  unfold Kernel.pdata at h
  split at h
  · rename_i d1 heq
    simp at h
    rw [heq, h]
  · exact absurd h (by simp)

theorem master_load {k : Kernel} {a : Nat} {m : w1_bus_master}
    (h : k.master a = some m) : load a k.mem = some (Cell.master m) := by
  unfold Kernel.master at h
  split at h
  · rename_i m1 heq
    simp at h
    rw [heq, h]
  · exact absurd h (by simp)

theorem store_pdata_ne (k : Kernel) (a b : Nat) (c : Cell) (h : b ≠ a) :
    (k.store a c).pdata b = k.pdata b := by
  simp [Kernel.pdata, Kernel.store, load_store, h]

theorem store_master_ne (k : Kernel) (a b : Nat) (c : Cell) (h : b ≠ a) :
    (k.store a c).master b = k.master b := by
  simp [Kernel.master, Kernel.store, load_store, h]

theorem store_pdata_same (k : Kernel) (a : Nat) (c0 : Cell) (d : w1_gpio_platform_data)
    (h : load a k.mem = some c0) : (k.store a (Cell.pdata d)).pdata a = some d := by
  simp [Kernel.pdata, Kernel.store, load_store, h]

theorem store_master_same (k : Kernel) (a : Nat) (c0 : Cell) (m : w1_bus_master)
    (h : load a k.mem = some c0) : (k.store a (Cell.master m)).master a = some m := by
  simp [Kernel.master, Kernel.store, load_store, h]

theorem store_master_pdata (k : Kernel) (a : Nat) (m : w1_bus_master) :
    (k.store a (Cell.master m)).pdata a = none := by
  unfold Kernel.pdata Kernel.store
  simp only [load_store]
  cases load a k.mem <;> simp

theorem pdata_master_ne {k : Kernel} {a b : Nat} {d : w1_gpio_platform_data}
    {m : w1_bus_master} (hd : k.pdata a = some d) (hm : k.master b = some m) : a ≠ b := by
  intro hab
  subst hab
  have h1 := pdata_load hd
  have h2 := master_load hm
  rw [h1] at h2
  simp at h2

/-! ## The bit operations -/

/-- C1: under the direction-switching strategy, for every pin and every 8-bit
value `bit`, `w1_gpio_write_bit_dir` makes exactly one call on the GPIO
capability: `gpio_direction_input(pin)` when `bit` is non-zero, which leaves
the pin in input direction with its output value untouched, and
`gpio_direction_output(pin, 0)` when `bit` is zero, which leaves the pin in
output direction driving 0.  Nothing else of the machine changes, and the
direction and value of every other pin are unaffected. -/
theorem w1_gpio_write_bit_dir_contract (k : Kernel) (data : Nat)
    (pdata : w1_gpio_platform_data) (bit : u8) (g : Nat → PinState)
    (hdata : k.pdata data = some pdata) :
    ∃ k1, w1_gpio_write_bit_dir data bit k = some k1 ∧
      (bit ≠ 0 →
        k1 = { k with trace := k.trace ++ [Event.gpio_direction_input pdata.pin] } ∧
        gpio_run k1.trace g pdata.pin =
          { gpio_run k.trace g pdata.pin with dir := Direction.input }) ∧
      (bit = 0 →
        k1 = { k with trace := k.trace ++ [Event.gpio_direction_output pdata.pin 0] } ∧
        gpio_run k1.trace g pdata.pin = { dir := Direction.output, value := 0 }) ∧
      ∀ q, q ≠ pdata.pin → gpio_run k1.trace g q = gpio_run k.trace g q := by
  by_cases hbit : bit = 0
  · refine ⟨{ k with trace := k.trace ++ [Event.gpio_direction_output pdata.pin 0] }, ?_, ?_, ?_, ?_⟩
    · simp [w1_gpio_write_bit_dir, hdata, hbit, gpio_direction_output, Kernel.call]
    · intro h; exact absurd hbit h
    · intro _
      refine ⟨rfl, ?_⟩
      simp [gpio_run_append, gpio_apply]
    · intro q hq
      simp [gpio_run_append, gpio_apply, hq]
  · refine ⟨{ k with trace := k.trace ++ [Event.gpio_direction_input pdata.pin] }, ?_, ?_, ?_, ?_⟩
    · simp [w1_gpio_write_bit_dir, hdata, hbit, gpio_direction_input, Kernel.call]
    · intro _
      refine ⟨rfl, ?_⟩
      simp [gpio_run_append, gpio_apply]
    · intro h; exact absurd h hbit
    · intro q hq
      simp [gpio_run_append, gpio_apply, hq]

/-! ## The exit labels of attach -/

theorem kfree_trace {a : Nat} {k k1 : Kernel} (h : kfree a k = some k1) :
    k1.trace = k.trace := by
  unfold kfree at h
  split at h
  · simp at h; rw [← h]
  · split at h
    · simp at h
    · simp at h; rw [← h]

theorem free_pdata_inv {a : Nat} {err r : Int} {k k1 : Kernel}
    (h : free_pdata a err k = some (r, k1)) : r = err ∧ k1.trace = k.trace := by
  unfold free_pdata at h
  split at h
  · simp at h
  · rename_i k2 hk
    simp at h
    obtain ⟨h1, h2⟩ := h
    subst h1 h2
    exact ⟨rfl, kfree_trace hk⟩

theorem free_master_inv {mp a : Nat} {err r : Int} {k k1 : Kernel}
    (h : free_master mp a err k = some (r, k1)) : r = err ∧ k1.trace = k.trace := by
  unfold free_master at h
  split at h
  · simp at h
  · rename_i k2 hk
    obtain ⟨h1, h2⟩ := free_pdata_inv h
    exact ⟨h1, by rw [h2, kfree_trace hk]⟩

theorem free_gpio_inv {mp a : Nat} {err r : Int} {k k1 : Kernel}
    (h : free_gpio mp a err k = some (r, k1)) :
    r = err ∧ ∃ d, k.pdata a = some d ∧ k1.trace = k.trace ++ [Event.gpio_free d.pin] := by
  unfold free_gpio at h
  split at h
  · simp at h
  · rename_i d hd
    obtain ⟨h1, h2⟩ := free_master_inv h
    exact ⟨h1, d, hd, by rw [h2]; rfl⟩

/-! ## What a returning attach has done -/

theorem probe_register_inv {env : Env} {mp a : Nat} {r : Int} {k k1 : Kernel}
    (h : w1_gpio_probe_register env mp a k = some (r, k1)) :
    ∃ m d, k.master mp = some m ∧ k.pdata a = some d ∧ env.w1_add_master_device m = r ∧
      (r ≠ 0 → k1.trace = k.trace ++
        [Event.w1_add_master_device m r, Event.gpio_free d.pin]) ∧
      (r = 0 → k1 =
        { trace := k.trace ++ [Event.w1_add_master_device m 0] ++ pullup_calls d 1
          mem := k.mem
          brk := k.brk
          platform_data := k.platform_data
          driver_data := mp }) := by
  unfold w1_gpio_probe_register at h
  split at h
  · simp at h
  · rename_i m hm
    by_cases hadd : env.w1_add_master_device m = 0
    · simp only [w1_add_master_device, hadd, ne_eq, not_true_eq_false, if_false] at h
      split at h
      · simp at h
      · rename_i d hd
        simp at h
        obtain ⟨h1, h2⟩ := h
        subst h1
        refine ⟨m, d, hm, by simpa using hd, hadd, ?_, ?_⟩
        · intro hne; exact absurd rfl hne
        · intro _
          rw [← h2]
          simp [pullup_trace]
    · simp only [w1_add_master_device, hadd, ne_eq, not_false_eq_true, if_true] at h
      obtain ⟨h1, d, hd, h2⟩ := free_gpio_inv h
      subst h1
      refine ⟨m, d, hm, by simpa using hd, rfl, ?_, ?_⟩
      · intro _
        rw [h2]; simp
      · intro h0; exact absurd h0 hadd

theorem probe_register_after_store {env : Env} {mp a : Nat} {r : Int} {k k1 : Kernel}
    {d : w1_gpio_platform_data} {m0 m : w1_bus_master} (e1 e2 : Event)
    (hd : k.pdata a = some d) (hm0 : k.master mp = some m0)
    (h : w1_gpio_probe_register env mp a
      ((((k.call e1).call e2).store mp (Cell.master m))) = some (r, k1)) :
    a ≠ mp ∧ env.w1_add_master_device m = r ∧
      (r ≠ 0 → k1.trace = k.trace ++
        [e1, e2, Event.w1_add_master_device m r, Event.gpio_free d.pin]) ∧
      (r = 0 → k1 =
        { trace := k.trace ++ [e1, e2, Event.w1_add_master_device m 0] ++ pullup_calls d 1
          mem := store mp (Cell.master m) k.mem
          brk := k.brk
          platform_data := k.platform_data
          driver_data := mp }) := by
  obtain ⟨m1, d1, hm1, hd1, hadd, hfail, hok⟩ := probe_register_inv h
  have hne : a ≠ mp := by
    intro hab
    subst hab
    rw [store_master_pdata] at hd1
    simp at hd1
  rw [store_pdata_ne _ _ _ _ hne] at hd1
  simp only [call_pdata] at hd1
  rw [hd] at hd1
  simp at hd1
  subst hd1
  have hl : load mp ((k.call e1).call e2).mem = some (Cell.master m0) := by
    simpa using master_load hm0
  rw [store_master_same _ _ _ _ hl] at hm1
  simp at hm1
  subst hm1
  refine ⟨hne, hadd, ?_, ?_⟩
  · intro hr
    rw [hfail hr]
    simp
  · intro hr
    rw [hok hr]
    simp [Kernel.store]

theorem probe_gpio_inv {env : Env} {mp a : Nat} {r : Int} {k k1 : Kernel}
    (h : w1_gpio_probe_gpio env mp a k = some (r, k1)) :
    ∃ d, k.pdata a = some d ∧
      ((env.gpio_request d.pin ≠ 0 ∧ r = env.gpio_request d.pin ∧
          k1.trace = k.trace ++ [Event.gpio_request d.pin r]) ∨
       (env.gpio_request d.pin = 0 ∧ a ≠ mp ∧
          env.w1_add_master_device (bound_master a d) = r ∧
          (r ≠ 0 → k1.trace = k.trace ++
            [Event.gpio_request d.pin 0, configure_call d,
              Event.w1_add_master_device (bound_master a d) r, Event.gpio_free d.pin]) ∧
          (r = 0 → k1 =
            { trace := k.trace ++
                [Event.gpio_request d.pin 0, configure_call d,
                  Event.w1_add_master_device (bound_master a d) 0] ++ pullup_calls d 1
              mem := store mp (Cell.master (bound_master a d)) k.mem
              brk := k.brk
              platform_data := k.platform_data
              driver_data := mp }))) := by
  unfold w1_gpio_probe_gpio at h
  split at h
  · simp at h
  · rename_i d hd
    refine ⟨d, hd, ?_⟩
    by_cases hreq : env.gpio_request d.pin = 0
    · right
      simp only [gpio_request, hreq, ne_eq, not_true_eq_false, if_false] at h
      split at h
      · simp at h
      · rename_i m0 hm0
        have hm0k : k.master mp = some m0 := by simpa using hm0
        by_cases hod : d.is_open_drain = 0
        · simp only [hod, ne_eq, not_true_eq_false, if_false, gpio_direction_input] at h
          have hb : bound_master a d =
              { data := a, read_bit := some read_bit_fn.w1_gpio_read_bit,
                write_bit := some write_bit_fn.w1_gpio_write_bit_dir } := by
            simp [bound_master, hod]
          have hc : configure_call d = Event.gpio_direction_input d.pin := by
            simp [configure_call, hod]
          rw [hb, hc]
          have := probe_register_after_store _ _ hd hm0k h
          exact ⟨hreq, this⟩
        · simp only [hod, ne_eq, not_false_eq_true, if_true, gpio_direction_output] at h
          have hb : bound_master a d =
              { data := a, read_bit := some read_bit_fn.w1_gpio_read_bit,
                write_bit := some write_bit_fn.w1_gpio_write_bit_val } := by
            simp [bound_master, hod]
          have hc : configure_call d = Event.gpio_direction_output d.pin 1 := by
            simp [configure_call, hod]
          rw [hb, hc]
          have := probe_register_after_store _ _ hd hm0k h
          exact ⟨hreq, this⟩
    · left
      simp only [gpio_request, hreq, ne_eq, not_false_eq_true, if_true] at h
      obtain ⟨h1, h2⟩ := free_master_inv h
      exact ⟨hreq, h1, by rw [h2, h1]; rfl⟩

theorem store_store (a : Nat) (c1 c2 : Cell) (m : List (Nat × Cell)) :
    store a c2 (store a c1 m) = store a c2 m := by
  induction m with
  | nil => rfl
  | cons x rest ih =>
    obtain ⟨x1, x2⟩ := x
    by_cases hax : a = x1
    · simp [store, hax]
    · simp [store, hax, ih]

theorem probe_dt_inv {env : Env} {a : Nat} {err : Int} {k k1 : Kernel}
    (h : w1_gpio_probe_dt env a k = some (err, k1)) :
    k1.trace = k.trace ∧
      (err = 0 → ∃ d0, k.pdata a = some d0 ∧
        (env.of_property_read_u32 "qcom,gpio-pin").1 = 0 ∧
        (env.of_property_read_u32 "qcom,is-open-drain").1 = 0 ∧
        k1 = { k with mem := store a (Cell.pdata (parsed env d0)) k.mem }) := by
  unfold w1_gpio_probe_dt at h
  by_cases h1 : (env.of_property_read_u32 "qcom,gpio-pin").1 = 0
  · simp only [h1, ne_eq, not_true_eq_false, if_false] at h
    split at h
    · simp at h
    · rename_i d0 hd0
      by_cases h2 : (env.of_property_read_u32 "qcom,is-open-drain").1 = 0
      · simp only [h2, ne_eq, not_true_eq_false, if_false] at h
        simp at h
        obtain ⟨he, hk⟩ := h
        subst he
        refine ⟨by rw [← hk]; rfl, fun _ => ⟨d0, hd0, h1, h2, ?_⟩⟩
        rw [← hk]
        simp [Kernel.store, store_store, parsed]
      · simp only [h2, ne_eq, not_false_eq_true, if_true] at h
        simp at h
        obtain ⟨he, hk⟩ := h
        subst he
        exact ⟨by rw [← hk]; rfl, fun h0 => absurd h0 h2⟩
  · simp only [h1, ne_eq, not_false_eq_true, if_true] at h
    simp at h
    obtain ⟨he, hk⟩ := h
    subst he
    exact ⟨by rw [← hk], fun h0 => absurd h0 h1⟩

theorem probe_parse_inv {env : Env} {a : Nat} {r : Int} {k k1 : Kernel}
    (h : w1_gpio_probe_parse env a k = some (r, k1)) :
    (r ≠ 0 ∧ (k1.trace = k.trace ∨ (∃ p, k1.trace = k.trace ++ [Event.gpio_request p r]) ∨
      ∃ d, k1.trace = k.trace ++
        [Event.gpio_request d.pin 0, configure_call d,
          Event.w1_add_master_device (bound_master a d) r, Event.gpio_free d.pin])) ∨
    (r = 0 ∧ ∃ d0, k.pdata a = some d0 ∧ a ≠ k.brk ∧ k.brk ≠ 0 ∧
      k1 = { trace := k.trace ++ attach_calls a (parsed env d0)
             mem := (k.brk, Cell.master (bound_master a (parsed env d0))) ::
               store a (Cell.pdata (parsed env d0)) k.mem
             brk := k.brk + 1
             platform_data := k.platform_data
             driver_data := k.brk }) := by
  unfold w1_gpio_probe_parse at h
  split at h
  · simp at h
  · rename_i err k2 hdt
    obtain ⟨htr, hok⟩ := probe_dt_inv hdt
    by_cases herr : err = 0
    · obtain ⟨d0, hd0, -, -, hk2⟩ := hok herr
      simp only [herr, ne_eq, not_true_eq_false, if_false] at h
      by_cases hal : env.kzalloc_master = true
      · simp only [kzalloc, hal, if_true] at h
        by_cases hb : k2.brk = 0
        · simp only [hb, if_true] at h
          simp at h
          left
          refine ⟨by rw [← h.1]; decide, Or.inl ?_⟩
          rw [← h.2]
          exact htr
        · simp only [hb, if_false] at h
          have hbk : k2.brk = k.brk := by rw [hk2]
          obtain ⟨d, hd, hcase⟩ := probe_gpio_inv h
          have hne : a ≠ k.brk := by
            intro hab
            have hl := pdata_load hd
            simp [load, hab, hbk] at hl
          have hd2 : k2.pdata a = some (parsed env d0) := by
            rw [hk2]
            exact store_pdata_same k a _ _ (pdata_load hd0)
          have hdd : d = parsed env d0 := by
            have hl := pdata_load hd
            have hl2 := pdata_load hd2
            simp [load, hne, hbk] at hl
            rw [hl2] at hl
            simpa using hl.symm
          subst hdd
          rcases hcase with ⟨hreq, hr, htr1⟩ | ⟨hreq, -, hadd, hfail, hsucc⟩
          · left
            refine ⟨by rw [hr]; exact hreq, Or.inr (Or.inl ⟨(parsed env d0).pin, ?_⟩)⟩
            rw [htr1]
            simp [htr]
          · by_cases hr0 : r = 0
            · right
              refine ⟨hr0, d0, hd0, hne, by rw [← hbk]; exact hb, ?_⟩
              rw [hsucc hr0, hk2]
              simp [attach_calls, store]
            · left
              refine ⟨hr0, Or.inr (Or.inr ⟨parsed env d0, ?_⟩)⟩
              rw [hfail hr0]
              simp [htr]
      · simp only [kzalloc, hal, Bool.false_eq_true, if_false, if_true] at h
        simp at h
        left
        refine ⟨by rw [← h.1]; decide, Or.inl ?_⟩
        rw [← h.2]
        exact htr
    · simp only [herr, ne_eq, not_false_eq_true, if_true] at h
      obtain ⟨h1, h2⟩ := free_pdata_inv h
      left
      exact ⟨by rw [h1]; exact herr, Or.inl (by rw [h2, htr])⟩

theorem probe_inv {env : Env} {r : Int} {k k1 : Kernel}
    (h : w1_gpio_probe env k = some (r, k1)) :
    (r ≠ 0 ∧ (k1.trace = k.trace ∨ (∃ p, k1.trace = k.trace ++ [Event.gpio_request p r]) ∨
      ∃ d a, k1.trace = k.trace ++
        [Event.gpio_request d.pin 0, configure_call d,
          Event.w1_add_master_device (bound_master a d) r, Event.gpio_free d.pin])) ∨
    (r = 0 ∧ ∃ d, k1.pdata k1.platform_data = some d ∧
      k1.master k1.driver_data = some (bound_master k1.platform_data d) ∧
      k1.trace = k.trace ++ attach_calls k1.platform_data d) := by
  unfold w1_gpio_probe at h
  have key : ∀ (a : Nat) (k0 : Kernel), k0.platform_data = a → k0.trace = k.trace →
      w1_gpio_probe_parse env a k0 = some (r, k1) →
      (r ≠ 0 ∧ (k1.trace = k.trace ∨ (∃ p, k1.trace = k.trace ++ [Event.gpio_request p r]) ∨
        ∃ d a, k1.trace = k.trace ++
          [Event.gpio_request d.pin 0, configure_call d,
            Event.w1_add_master_device (bound_master a d) r, Event.gpio_free d.pin])) ∨
      (r = 0 ∧ ∃ d, k1.pdata k1.platform_data = some d ∧
        k1.master k1.driver_data = some (bound_master k1.platform_data d) ∧
        k1.trace = k.trace ++ attach_calls k1.platform_data d) := by
    intro a k0 hpd htr hp
    rcases probe_parse_inv hp with ⟨hr, hcase⟩ | ⟨hr, d0, hd0, hne, hb, hk1⟩
    · left
      refine ⟨hr, ?_⟩
      rcases hcase with h1 | ⟨p, h1⟩ | ⟨d, h1⟩
      · exact Or.inl (by rw [h1, htr])
      · exact Or.inr (Or.inl ⟨p, by rw [h1, htr]⟩)
      · exact Or.inr (Or.inr ⟨d, a, by rw [h1, htr]⟩)
    · right
      refine ⟨hr, parsed env d0, ?_, ?_, ?_⟩
      · rw [hk1]
        simp only [Kernel.pdata, load, hpd, hne, if_false, load_store, if_true]
        rw [pdata_load hd0]
        rfl
      · rw [hk1]
        simp [Kernel.master, load, hpd]
      · rw [hk1]
        simp [hpd, htr]
  by_cases hp : k.platform_data = 0
  · simp only [hp, if_true] at h
    by_cases hal : env.kzalloc_pdata = true
    · simp only [kzalloc, hal, if_true] at h
      by_cases hb : k.brk = 0
      · simp only [hb, if_true] at h
        simp at h
        left
        exact ⟨by rw [← h.1]; decide, Or.inl (by rw [← h.2])⟩
      · simp only [hb, if_false] at h
        exact key k.brk
          { trace := k.trace, mem := (k.brk, Cell.pdata zeroed_pdata) :: k.mem,
            brk := k.brk + 1, platform_data := k.brk, driver_data := k.driver_data }
          rfl rfl h
    · simp only [kzalloc, hal, Bool.false_eq_true, if_false, if_true] at h
      simp at h
      left
      exact ⟨by rw [← h.1]; decide, Or.inl (by rw [← h.2])⟩
  · simp only [hp, if_false] at h
    exact key k.platform_data k rfl rfl h

/-! ## What attach does from a state it can run in -/

theorem kfree_run {a : Nat} {k : Kernel} {c : Cell} (h : load a k.mem = some c) :
    kfree a k = some { k with mem := k.mem.filter (fun x => !decide (x.1 = a)) } ∨
      kfree a k = some k := by
  unfold kfree
  by_cases ha : a = 0
  · right; simp [ha]
  · left; simp [ha, h]

theorem free_gpio_run {mp a : Nat} (err : Int) {k : Kernel} {d : w1_gpio_platform_data}
    {m : w1_bus_master} (hd : k.pdata a = some d) (hm : k.master mp = some m) :
    ∃ k1, free_gpio mp a err k = some (err, k1) ∧
      k1.trace = k.trace ++ [Event.gpio_free d.pin] := by
  have hne : a ≠ mp := pdata_master_ne hd hm
  have hlm : load mp (gpio_free d.pin k).mem = some (Cell.master m) := master_load hm
  have hla : load a (gpio_free d.pin k).mem = some (Cell.pdata d) := pdata_load hd
  unfold free_gpio free_master free_pdata
  rw [hd]
  simp only []
  rcases kfree_run hlm with h1 | h1
  · rw [h1]
    simp only []
    have hla2 : load a ({ gpio_free d.pin k with
        mem := (gpio_free d.pin k).mem.filter (fun x => !decide (x.1 = mp)) } : Kernel).mem =
        some (Cell.pdata d) := by
      simp only [load_filter, hne, if_false]
      exact hla
    rcases kfree_run hla2 with h2 | h2
    · rw [h2]
      exact ⟨_, rfl, rfl⟩
    · rw [h2]
      exact ⟨_, rfl, rfl⟩
  · rw [h1]
    simp only []
    rcases kfree_run hla with h2 | h2
    · rw [h2]
      exact ⟨_, rfl, rfl⟩
    · rw [h2]
      exact ⟨_, rfl, rfl⟩

theorem probe_dt_run {env : Env} {a : Nat} {k : Kernel} {d0 : w1_gpio_platform_data}
    (hd0 : k.pdata a = some d0)
    (hpin : (env.of_property_read_u32 "qcom,gpio-pin").1 = 0)
    (hod : (env.of_property_read_u32 "qcom,is-open-drain").1 = 0) :
    w1_gpio_probe_dt env a k =
      some (0, { k with mem := store a (Cell.pdata (parsed env d0)) k.mem }) := by
  unfold w1_gpio_probe_dt
  simp [hpin, hod, hd0, Kernel.store, store_store, parsed]

theorem probe_gpio_run (env : Env) {mp a : Nat} {k : Kernel} {d : w1_gpio_platform_data}
    {m0 : w1_bus_master} (hd : k.pdata a = some d) (hm : k.master mp = some m0)
    (hreq : env.gpio_request d.pin = 0) :
    ∃ k1, w1_gpio_probe_gpio env mp a k =
        some (env.w1_add_master_device (bound_master a d), k1) ∧
      (env.w1_add_master_device (bound_master a d) ≠ 0 →
        k1.trace = k.trace ++
          [Event.gpio_request d.pin 0, configure_call d,
            Event.w1_add_master_device (bound_master a d)
              (env.w1_add_master_device (bound_master a d)),
            Event.gpio_free d.pin]) ∧
      (env.w1_add_master_device (bound_master a d) = 0 →
        k1 = { trace := k.trace ++ attach_calls a d
               mem := store mp (Cell.master (bound_master a d)) k.mem
               brk := k.brk
               platform_data := k.platform_data
               driver_data := mp }) := by
  have hne : a ≠ mp := pdata_master_ne hd hm
  -- the state in which registration is attempted
  have hstage : ∀ (e2 : Event) (m : w1_bus_master), e2 = configure_call d →
      m = bound_master a d →
      ∃ k1, w1_gpio_probe_register env mp a
          ((((k.call (Event.gpio_request d.pin 0)).call e2).store mp (Cell.master m))) =
          some (env.w1_add_master_device (bound_master a d), k1) ∧
        (env.w1_add_master_device (bound_master a d) ≠ 0 →
          k1.trace = k.trace ++
            [Event.gpio_request d.pin 0, configure_call d,
              Event.w1_add_master_device (bound_master a d)
                (env.w1_add_master_device (bound_master a d)),
              Event.gpio_free d.pin]) ∧
        (env.w1_add_master_device (bound_master a d) = 0 →
          k1 = { trace := k.trace ++ attach_calls a d
                 mem := store mp (Cell.master (bound_master a d)) k.mem
                 brk := k.brk
                 platform_data := k.platform_data
                 driver_data := mp }) := by
    intro e2 m he2 hmb
    subst he2 hmb
    have hl : load mp ((k.call (Event.gpio_request d.pin 0)).call (configure_call d)).mem =
        some (Cell.master m0) := by simpa using master_load hm
    have hm1 := store_master_same _ mp _ (bound_master a d) hl
    have hd1 : ((((k.call (Event.gpio_request d.pin 0)).call (configure_call d)).store mp
        (Cell.master (bound_master a d)))).pdata a = some d := by
      rw [store_pdata_ne _ _ _ _ hne]
      simpa using hd
    unfold w1_gpio_probe_register
    rw [hm1]
    simp only [w1_add_master_device]
    by_cases hadd : env.w1_add_master_device (bound_master a d) = 0
    · simp only [hadd, ne_eq, not_true_eq_false, if_false, call_pdata, hd1]
      refine ⟨_, rfl, fun h => False.elim (by simp at h), fun _ => ?_⟩
      simp [pullup_trace, attach_calls, Kernel.store]
    · simp only [hadd, ne_eq, not_false_eq_true, if_true]
      have hd2 : (((((k.call (Event.gpio_request d.pin 0)).call (configure_call d)).store mp
          (Cell.master (bound_master a d)))).call
            (Event.w1_add_master_device (bound_master a d)
              (env.w1_add_master_device (bound_master a d)))).pdata a = some d := by
        simpa using hd1
      have hm2 : (((((k.call (Event.gpio_request d.pin 0)).call (configure_call d)).store mp
          (Cell.master (bound_master a d)))).call
            (Event.w1_add_master_device (bound_master a d)
              (env.w1_add_master_device (bound_master a d)))).master mp =
            some (bound_master a d) := by
        simpa using hm1
      obtain ⟨k1, hk1, htr⟩ := free_gpio_run (env.w1_add_master_device (bound_master a d)) hd2 hm2
      refine ⟨k1, hk1, fun _ => ?_, fun h => False.elim (by simp at h)⟩
      rw [htr]
      simp
  unfold w1_gpio_probe_gpio
  rw [hd]
  simp only [gpio_request, hreq, ne_eq, not_true_eq_false, if_false, call_master, hm]
  by_cases hod : d.is_open_drain = 0
  · simp only [hod, not_true_eq_false, if_false, gpio_direction_input]
    exact hstage _ _ (by simp [configure_call, hod]) (by simp [bound_master, hod])
  · simp only [hod, not_false_eq_true, if_true, gpio_direction_output]
    exact hstage _ _ (by simp [configure_call, hod]) (by simp [bound_master, hod])

theorem probe_parse_run (env : Env) {a : Nat} {k : Kernel} {d0 : w1_gpio_platform_data}
    (hd0 : k.pdata a = some d0) (hne : a ≠ k.brk) (hb : k.brk ≠ 0)
    (hread : config_readable env) (hmaster : env.kzalloc_master = true)
    (hreq : env.gpio_request (parsed env d0).pin = 0) :
    ∃ k1, w1_gpio_probe_parse env a k =
        some (env.w1_add_master_device (bound_master a (parsed env d0)), k1) ∧
      (env.w1_add_master_device (bound_master a (parsed env d0)) ≠ 0 →
        k1.trace = k.trace ++
          [Event.gpio_request (parsed env d0).pin 0, configure_call (parsed env d0),
            Event.w1_add_master_device (bound_master a (parsed env d0))
              (env.w1_add_master_device (bound_master a (parsed env d0))),
            Event.gpio_free (parsed env d0).pin]) ∧
      (env.w1_add_master_device (bound_master a (parsed env d0)) = 0 →
        k1 = { trace := k.trace ++ attach_calls a (parsed env d0)
               mem := (k.brk, Cell.master (bound_master a (parsed env d0))) ::
                 store a (Cell.pdata (parsed env d0)) k.mem
               brk := k.brk + 1
               platform_data := k.platform_data
               driver_data := k.brk }) := by
  unfold w1_gpio_probe_parse
  rw [probe_dt_run hd0 hread.1 hread.2]
  simp only [ne_eq, not_true_eq_false, if_false, kzalloc, hmaster, if_true, hb]
  have hd : (⟨k.trace,
      (k.brk, Cell.master zeroed_master) :: store a (Cell.pdata (parsed env d0)) k.mem,
      k.brk + 1, k.platform_data, k.driver_data⟩ : Kernel).pdata a = some (parsed env d0) := by
    simp only [Kernel.pdata, load, hne, if_false, load_store, if_true]
    rw [pdata_load hd0]
    rfl
  have hm : (⟨k.trace,
      (k.brk, Cell.master zeroed_master) :: store a (Cell.pdata (parsed env d0)) k.mem,
      k.brk + 1, k.platform_data, k.driver_data⟩ : Kernel).master k.brk =
      some zeroed_master := by
    simp [Kernel.master, load]
  obtain ⟨k1, hk1, hfail, hok⟩ := probe_gpio_run env hd hm hreq
  refine ⟨k1, hk1, hfail, fun h0 => ?_⟩
  rw [hok h0]
  simp [store]

theorem probe_run {env : Env} {k : Kernel} {d0 : w1_gpio_platform_data}
    (hcfg : config_available env k d0) (hread : config_readable env)
    (hmaster : env.kzalloc_master = true)
    (hreq : env.gpio_request (parsed env d0).pin = 0) :
    ∃ k1, w1_gpio_probe env k =
        some (env.w1_add_master_device (bound_master k.config_addr (parsed env d0)), k1) ∧
      (env.w1_add_master_device (bound_master k.config_addr (parsed env d0)) ≠ 0 →
        k1.trace = k.trace ++
          [Event.gpio_request (parsed env d0).pin 0, configure_call (parsed env d0),
            Event.w1_add_master_device (bound_master k.config_addr (parsed env d0))
              (env.w1_add_master_device (bound_master k.config_addr (parsed env d0))),
            Event.gpio_free (parsed env d0).pin]) ∧
      (env.w1_add_master_device (bound_master k.config_addr (parsed env d0)) = 0 →
        k1.trace = k.trace ++ attach_calls k.config_addr (parsed env d0) ∧
        k1.platform_data = k.config_addr ∧
        k1.pdata k.config_addr = some (parsed env d0) ∧
        k1.master k1.driver_data = some (bound_master k.config_addr (parsed env d0)) ∧
        k.config_addr ≠ 0 ∧ k.config_addr < k1.driver_data ∧ k1.driver_data < k1.brk) := by
  obtain ⟨hb, hcase⟩ := hcfg
  unfold w1_gpio_probe
  rcases hcase with ⟨hp, hal, hd0⟩ | ⟨hp, hlt, hd0⟩
  · have ha : k.config_addr = k.brk := by simp [Kernel.config_addr, hp]
    rw [ha]
    simp only [hp, if_true, kzalloc, hal, hb, if_false]
    have hd : (⟨k.trace, (k.brk, Cell.pdata zeroed_pdata) :: k.mem,
        k.brk + 1, k.brk, k.driver_data⟩ : Kernel).pdata k.brk = some d0 := by
      simp [Kernel.pdata, load, hd0]
    obtain ⟨k1, hk1, hfail, hok⟩ :=
      probe_parse_run env hd (by simp) (by simp) hread hmaster hreq
    refine ⟨k1, hk1, hfail, fun h0 => ?_⟩
    rw [hok h0]
    refine ⟨rfl, rfl, ?_, ?_, hb, ?_, ?_⟩
    · simp [Kernel.pdata, load, store]
    · simp [Kernel.master, load]
    · simp
    · simp
  · have ha : k.config_addr = k.platform_data := by simp [Kernel.config_addr, hp]
    rw [ha]
    simp only [hp, if_false]
    have hne : k.platform_data ≠ k.brk := Nat.ne_of_lt hlt
    obtain ⟨k1, hk1, hfail, hok⟩ :=
      probe_parse_run env hd0 hne hb hread hmaster hreq
    refine ⟨k1, hk1, hfail, fun h0 => ?_⟩
    rw [hok h0]
    refine ⟨rfl, rfl, ?_, ?_, hp, hlt, ?_⟩
    · simp only [Kernel.pdata, load, hne, if_false, load_store, if_true]
      rw [pdata_load hd0]
      rfl
    · simp [Kernel.master, load]
    · simp

/-! ## Detach, suspend and resume -/

theorem remove_inv {r : Int} {k k1 : Kernel} (h : w1_gpio_remove k = some (r, k1)) :
    r = 0 ∧ ∃ d m, k.pdata k.platform_data = some d ∧ k.master k.driver_data = some m ∧
      k1.trace = k.trace ++ detach_calls m d := by
  unfold w1_gpio_remove at h
  split at h
  · simp at h
  · rename_i d hd
    simp only [] at h
    split at h
    · simp at h
    · rename_i m hm
      split at h
      · simp at h
      · rename_i k3 hk3
        simp at h
        obtain ⟨h1, h2⟩ := h
        subst h1 h2
        refine ⟨rfl, d, m, hd, by simpa using hm, ?_⟩
        rw [kfree_trace hk3]
        simp [gpio_free, w1_remove_master_device, pullup_trace, detach_calls]

theorem remove_run {k : Kernel} {d : w1_gpio_platform_data} {m : w1_bus_master}
    (hd : k.pdata k.platform_data = some d) (hm : k.master k.driver_data = some m) :
    ∃ k1, w1_gpio_remove k = some (0, k1) ∧ k1.trace = k.trace ++ detach_calls m d ∧
      k1.pdata k.platform_data = some d ∧ k1.platform_data = k.platform_data ∧
      k1.brk = k.brk := by
  have hne : k.platform_data ≠ k.driver_data := pdata_master_ne hd hm
  unfold w1_gpio_remove
  rw [hd]
  simp only [pullup_master, hm]
  have hl : load k.driver_data
      (gpio_free d.pin (w1_remove_master_device m (enable_external_pullup d 0 k))).mem =
      some (Cell.master m) := by
    simpa [gpio_free, w1_remove_master_device] using master_load hm
  rcases kfree_run hl with h1 | h1
  · rw [h1]
    refine ⟨_, rfl, ?_, ?_, ?_, ?_⟩
    · simp [gpio_free, w1_remove_master_device, pullup_trace, detach_calls]
    · simp only [Kernel.pdata, load_filter, hne, if_false]
      simpa [gpio_free, w1_remove_master_device, Kernel.pdata] using hd
    · simp [gpio_free, w1_remove_master_device]
    · simp [gpio_free, w1_remove_master_device]
  · rw [h1]
    refine ⟨_, rfl, ?_, ?_, ?_, ?_⟩
    · simp [gpio_free, w1_remove_master_device, pullup_trace, detach_calls]
    · simpa [gpio_free, w1_remove_master_device] using hd
    · simp [gpio_free, w1_remove_master_device]
    · simp [gpio_free, w1_remove_master_device]

/-- C7: detach from an attached adapter (its configuration record and its
handle are live) returns 0 and makes exactly these calls, in this order: the
external pull-up callback with 0 (disable) when it is present and nothing when
it is absent; then `w1_remove_master_device` on the handle; then `gpio_free`
on the pin. -/
theorem w1_gpio_remove_sequence (k : Kernel) (d : w1_gpio_platform_data) (m : w1_bus_master)
    (hd : k.pdata k.platform_data = some d) (hm : k.master k.driver_data = some m) :
    ∃ k1, w1_gpio_remove k = some (0, k1) ∧
      k1.trace = k.trace ++
        ((if d.enable_external_pullup then [Event.enable_external_pullup 0] else []) ++
          [Event.w1_remove_master_device m, Event.gpio_free d.pin]) := by
  obtain ⟨k1, h1, h2, -⟩ := remove_run hd hm
  refine ⟨k1, h1, ?_⟩
  rw [h2]
  simp [detach_calls, pullup_calls]

/-- C8: on an attached adapter, suspend followed by resume both return 0; when
the external pull-up callback is present the calls made are exactly
`[disable, enable]` in that order, when it is absent no call is made; nothing
else of the machine changes (no pin request or release, no direction change,
no registration or deregistration). -/
theorem w1_gpio_suspend_resume_trace (k : Kernel) (d : w1_gpio_platform_data)
    (hd : k.pdata k.platform_data = some d) :
    ∃ k1 k2, w1_gpio_suspend k = some (0, k1) ∧ w1_gpio_resume k1 = some (0, k2) ∧
      k2 = { k with trace := k.trace ++
        (if d.enable_external_pullup then
          [Event.enable_external_pullup 0, Event.enable_external_pullup 1]
        else []) } := by
  refine ⟨enable_external_pullup d 0 k,
    enable_external_pullup d 1 (enable_external_pullup d 0 k), ?_, ?_, ?_⟩
  · simp [w1_gpio_suspend, hd]
  · simp [w1_gpio_resume, hd]
  · cases hp : d.enable_external_pullup
    · simp [enable_external_pullup, hp]
    · simp [enable_external_pullup, hp, Kernel.call]

/-! ## Attach -/

/-- C3: when attach can obtain its configuration record, both device-tree keys
are readable, the handle allocation succeeds, the pin request succeeds and the
engine accepts the registration, `w1_gpio_probe` returns 0 and makes exactly
these calls, in this order: `gpio_request` on the pin; `gpio_direction_output`
with value 1 when the open-drain cell is non-zero, `gpio_direction_input` when
it is zero; `w1_add_master_device` on a handle whose context is the
configuration record, whose `read_bit` is `w1_gpio_read_bit` and whose
`write_bit` is `w1_gpio_write_bit_val` (cell non-zero) or
`w1_gpio_write_bit_dir` (cell zero); and last the external pull-up callback
with 1 (enable) when it is present, nothing when it is absent. -/
theorem w1_gpio_probe_success (env : Env) (k : Kernel) (d0 : w1_gpio_platform_data)
    (hcfg : config_available env k d0) (hread : config_readable env)
    (hmaster : env.kzalloc_master = true)
    (hreq : env.gpio_request (u32 (env.of_property_read_u32 "qcom,gpio-pin").2) = 0)
    (hadd : ∀ m, env.w1_add_master_device m = 0) :
    ∃ k1, w1_gpio_probe env k = some (0, k1) ∧
      k1.trace = k.trace ++
        ([Event.gpio_request (u32 (env.of_property_read_u32 "qcom,gpio-pin").2) 0,
          (if u32 (env.of_property_read_u32 "qcom,is-open-drain").2 ≠ 0 then
            Event.gpio_direction_output (u32 (env.of_property_read_u32 "qcom,gpio-pin").2) 1
          else
            Event.gpio_direction_input (u32 (env.of_property_read_u32 "qcom,gpio-pin").2)),
          Event.w1_add_master_device
            { data := k.config_addr
              read_bit := some read_bit_fn.w1_gpio_read_bit
              write_bit :=
                if u32 (env.of_property_read_u32 "qcom,is-open-drain").2 ≠ 0 then
                  some write_bit_fn.w1_gpio_write_bit_val
                else some write_bit_fn.w1_gpio_write_bit_dir } 0] ++
          (if d0.enable_external_pullup then [Event.enable_external_pullup 1] else [])) ∧
      k1.platform_data = k.config_addr ∧
      k1.pdata k.config_addr =
        some { pin := u32 (env.of_property_read_u32 "qcom,gpio-pin").2
               is_open_drain :=
                 if u32 (env.of_property_read_u32 "qcom,is-open-drain").2 ≠ 0 then 1 else 0
               enable_external_pullup := d0.enable_external_pullup } := by
  obtain ⟨k1, hk1, -, hok⟩ := probe_run hcfg hread hmaster hreq
  have h0 := hadd (bound_master k.config_addr (parsed env d0))
  rw [h0] at hk1
  obtain ⟨htr, hpd, hd, -⟩ := hok h0
  refine ⟨k1, hk1, ?_, hpd, hd⟩
  rw [htr]
  by_cases hod : u32 (env.of_property_read_u32 "qcom,is-open-drain").2 = 0
  · simp [attach_calls, configure_call, bound_master, pullup_calls, parsed, hod]
  · simp [attach_calls, configure_call, bound_master, pullup_calls, parsed, hod]

/-- C4: when the pin request succeeds but `w1_add_master_device` fails with
the non-zero code `e`, `w1_gpio_probe` returns `e` and makes exactly these
calls: one `gpio_request` on the pin, the call that configures the pin, the
failed `w1_add_master_device`, and then one `gpio_free` on the same pin.  The
external pull-up callback is not called. -/
theorem w1_gpio_probe_registration_failure (env : Env) (k : Kernel)
    (d0 : w1_gpio_platform_data) (e : Int)
    (hcfg : config_available env k d0) (hread : config_readable env)
    (hmaster : env.kzalloc_master = true)
    (hreq : env.gpio_request (parsed env d0).pin = 0)
    (hadd : env.w1_add_master_device (bound_master k.config_addr (parsed env d0)) = e)
    (he : e ≠ 0) :
    ∃ k1, w1_gpio_probe env k = some (e, k1) ∧
      k1.trace = k.trace ++
        [Event.gpio_request (parsed env d0).pin 0, configure_call (parsed env d0),
          Event.w1_add_master_device (bound_master k.config_addr (parsed env d0)) e,
          Event.gpio_free (parsed env d0).pin] ∧
      request_count (parsed env d0).pin (k1.trace.drop k.trace.length) = 1 ∧
      free_count (parsed env d0).pin (k1.trace.drop k.trace.length) = 1 ∧
      ∀ n, Event.enable_external_pullup n ∉ k1.trace.drop k.trace.length := by
  obtain ⟨k1, hk1, hfail, -⟩ := probe_run hcfg hread hmaster hreq
  rw [hadd] at hk1 hfail
  have htr := hfail he
  refine ⟨k1, hk1, htr, ?_, ?_, ?_⟩
  · rw [htr]
    by_cases hod : (parsed env d0).is_open_drain = 0
    · simp [request_count, configure_call, hod]
    · simp [request_count, configure_call, hod]
  · rw [htr]
    by_cases hod : (parsed env d0).is_open_drain = 0
    · simp [free_count, configure_call, hod]
    · simp [free_count, configure_call, hod]
  · intro n
    rw [htr]
    by_cases hod : (parsed env d0).is_open_drain = 0
    · simp [configure_call, hod]
    · simp [configure_call, hod]

theorem probe_parse_config_error {env : Env} {a : Nat} {r : Int} {k k1 : Kernel}
    (hfail : ¬ config_readable env) (h : w1_gpio_probe_parse env a k = some (r, k1)) :
    r ≠ 0 ∧ k1.trace = k.trace := by
  unfold w1_gpio_probe_parse at h
  split at h
  · simp at h
  · rename_i err k2 hdt
    obtain ⟨htr, hok⟩ := probe_dt_inv hdt
    have herr : err ≠ 0 := by
      intro h0
      obtain ⟨d0, -, h1, h2, -⟩ := hok h0
      exact hfail ⟨h1, h2⟩
    simp only [herr, ne_eq, not_false_eq_true, if_true] at h
    obtain ⟨h1, h2⟩ := free_pdata_inv h
    exact ⟨by rw [h1]; exact herr, by rw [h2, htr]⟩

theorem probe_parse_config_error_run {env : Env} {a : Nat} {k : Kernel}
    {d0 : w1_gpio_platform_data} (hfail : ¬ config_readable env)
    (hd0 : k.pdata a = some d0) (ha : a ≠ 0) :
    ∃ k1, w1_gpio_probe_parse env a k = some (dt_error env, k1) := by
  unfold w1_gpio_probe_parse w1_gpio_probe_dt dt_error
  by_cases h1 : (env.of_property_read_u32 "qcom,gpio-pin").1 = 0
  · have h2 : (env.of_property_read_u32 "qcom,is-open-drain").1 ≠ 0 :=
      fun h2 => hfail ⟨h1, h2⟩
    have hl : load a (k.store a
        (Cell.pdata { d0 with pin := u32 (env.of_property_read_u32 "qcom,gpio-pin").2 })).mem =
        some (Cell.pdata { d0 with pin := u32 (env.of_property_read_u32 "qcom,gpio-pin").2 }) := by
      simp [Kernel.store, load_store, pdata_load hd0]
    simp [h1, h2, hd0, free_pdata, kfree, ha, hl]
  · simp [h1, free_pdata, kfree, ha, pdata_load hd0]

/-- C5: when reading either required device-tree key fails, an attach that
returns has returned a non-zero code and has made no call at all on the GPIO
capability, the protocol engine or the pull-up callback (no `gpio_request`, no
direction change, no registration); and from every state in which attach can
obtain its configuration record it does return, with the error code of the
read that failed. -/
theorem w1_gpio_probe_config_error (env : Env) (k : Kernel)
    (hfail : ¬ config_readable env) :
    (∀ r k1, w1_gpio_probe env k = some (r, k1) → r ≠ 0 ∧ k1.trace = k.trace) ∧
    (∀ d0, config_available env k d0 →
      ∃ k1, w1_gpio_probe env k = some (dt_error env, k1) ∧ dt_error env ≠ 0 ∧
        k1.trace = k.trace ∧ request_count (parsed env d0).pin (k1.trace.drop k.trace.length) = 0) := by
  have part1 : ∀ r k1, w1_gpio_probe env k = some (r, k1) → r ≠ 0 ∧ k1.trace = k.trace := by
    intro r k1 h
    unfold w1_gpio_probe at h
    by_cases hp : k.platform_data = 0
    · simp only [hp, if_true] at h
      by_cases hal : env.kzalloc_pdata = true
      · simp only [kzalloc, hal, if_true] at h
        by_cases hb : k.brk = 0
        · simp only [hb, if_true] at h
          simp at h
          exact ⟨by rw [← h.1]; decide, by rw [← h.2]⟩
        · simp only [hb, if_false] at h
          have h2 := probe_parse_config_error hfail h
          exact ⟨h2.1, h2.2⟩
      · simp only [kzalloc, hal, Bool.false_eq_true, if_false, if_true] at h
        simp at h
        exact ⟨by rw [← h.1]; decide, by rw [← h.2]⟩
    · simp only [hp, if_false] at h
      exact probe_parse_config_error hfail h
  refine ⟨part1, ?_⟩
  intro d0 hcfg
  obtain ⟨hb, hcase⟩ := hcfg
  have hex : ∃ k1, w1_gpio_probe env k = some (dt_error env, k1) := by
    unfold w1_gpio_probe
    rcases hcase with ⟨hp, hal, hd0⟩ | ⟨hp, hlt, hd0⟩
    · simp only [hp, if_true, kzalloc, hal, hb, if_false]
      have hd : (⟨k.trace, (k.brk, Cell.pdata zeroed_pdata) :: k.mem,
          k.brk + 1, k.brk, k.driver_data⟩ : Kernel).pdata k.brk = some d0 := by
        simp [Kernel.pdata, load, hd0]
      exact probe_parse_config_error_run hfail hd hb
    · simp only [hp, if_false]
      exact probe_parse_config_error_run hfail hd0 hp
  obtain ⟨k1, hk1⟩ := hex
  obtain ⟨hr, htr⟩ := part1 _ _ hk1
  exact ⟨k1, hk1, hr, htr, by rw [htr]; simp [request_count]⟩

/-- C6: the failing input.  From a machine without platform data, with both
device-tree keys readable, the allocation of the configuration record
succeeding and the allocation of the bus master handle failing,
`w1_gpio_probe` returns -ENOMEM (line 105) while the configuration record it
allocated at line 89 is still live and still referenced by the platform data
pointer: this exit skips the `kfree(pdata)` that every other failure exit
performs. -/
theorem w1_gpio_probe_handle_oom_keeps_pdata :
    w1_gpio_probe handle_oom_env boot =
      some (-12,
        { trace := []
          mem := [(1, Cell.pdata { pin := 5, is_open_drain := 1,
                                   enable_external_pullup := false })]
          brk := 2
          platform_data := 1
          driver_data := 0 }) ∧
    boot.mem = [] := by
  decide

/-! ## The open-drain strategy after attach -/

theorem gpio_run_concat (tr tr2 : List Event) (g : Nat → PinState) :
    gpio_run (tr ++ tr2) g = gpio_run tr2 (gpio_run tr g) := by
  simp [gpio_run, List.foldl_append]

theorem gpio_run_cons (e : Event) (tr : List Event) (g : Nat → PinState) :
    gpio_run (e :: tr) g = gpio_run tr (gpio_apply e g) := rfl

theorem open_drain_calls_dir (env : Env) (gpio : Nat) (ops : List BitOp)
    (g : Nat → PinState) :
    (gpio_run (ops.map (BitOp.open_drain_call env gpio)) g gpio).dir = (g gpio).dir := by
  induction ops generalizing g with
  | nil => rfl
  | cons op rest ih =>
    rw [List.map_cons, gpio_run_cons, ih]
    cases op <;> simp [BitOp.open_drain_call, gpio_apply]

theorem open_drain_calls_value (env : Env) (gpio : Nat) (ops : List BitOp) (bit : u8)
    (g : Nat → PinState) :
    (gpio_run ((ops ++ [BitOp.write_bit bit]).map (BitOp.open_drain_call env gpio)) g
      gpio).value = (bit.val : Int) := by
  rw [List.map_append, gpio_run_concat]
  simp [gpio_run, BitOp.open_drain_call, gpio_apply]

theorem run_bit_ops_open_drain (env : Env) (mp a : Nat) (d : w1_gpio_platform_data)
    (hod : d.is_open_drain ≠ 0) (ops : List BitOp) :
    ∀ k : Kernel, k.master mp = some (bound_master a d) → k.pdata a = some d →
      run_bit_ops env mp ops k =
        some { k with trace := k.trace ++ ops.map (BitOp.open_drain_call env d.pin) } := by
  induction ops with
  | nil => intro k _ _; simp [run_bit_ops]
  | cons op rest ih =>
    intro k hm hd
    cases op with
    | write_bit bit =>
      have hstep : w1_write_bit mp bit k = some (k.call (Event.gpio_set_value d.pin bit.val)) := by
        simp [w1_write_bit, hm, bound_master, hod, w1_gpio_write_bit_val, hd, gpio_set_value]
      simp only [run_bit_ops, hstep]
      rw [ih (k.call (Event.gpio_set_value d.pin bit.val)) (by simpa using hm)
        (by simpa using hd)]
      simp [Kernel.call, BitOp.open_drain_call]
    | read_bit =>
      have hstep : w1_read_bit env mp k =
          some (if env.gpio_get_value d.pin ≠ 0 then 1 else 0,
            k.call (Event.gpio_get_value d.pin (env.gpio_get_value d.pin))) := by
        simp [w1_read_bit, hm, bound_master, w1_gpio_read_bit, hd, gpio_get_value]
      simp only [run_bit_ops, hstep]
      rw [ih (k.call (Event.gpio_get_value d.pin (env.gpio_get_value d.pin)))
        (by simpa using hm) (by simpa using hd)]
      simp [Kernel.call, BitOp.open_drain_call]

/-- C2: under the open-drain strategy (the open-drain flag of the configuration
record is non-zero), after a successful attach the pin is in output direction,
and every finite sequence of bit operations issued through the registered
handle runs to completion making exactly one call per operation,
`gpio_set_value(pin, b)` for `write_bit(b)` and `gpio_get_value(pin)` for
`read_bit`, and changing nothing else of the machine; no direction change is
issued, the pin is still in output direction afterwards, and after a
`write_bit(b)` the output value of the pin is `b`. -/
theorem open_drain_direction_fixed (env env1 : Env) (k k1 : Kernel)
    (d : w1_gpio_platform_data) (ops : List BitOp) (g : Nat → PinState)
    (hattach : w1_gpio_probe env k = some (0, k1))
    (hd : k1.pdata k1.platform_data = some d)
    (hod : d.is_open_drain ≠ 0) :
    (gpio_run k1.trace g d.pin).dir = Direction.output ∧
    ∃ k2, run_bit_ops env1 k1.driver_data ops k1 = some k2 ∧
      k2 = { k1 with trace := k1.trace ++ ops.map (BitOp.open_drain_call env1 d.pin) } ∧
      (gpio_run k2.trace g d.pin).dir = Direction.output ∧
      ∀ bit, ops.getLast? = some (BitOp.write_bit bit) →
        (gpio_run k2.trace g d.pin).value = (bit.val : Int) := by
  rcases probe_inv hattach with ⟨hr, -⟩ | ⟨-, d1, hd1, hm1, htr⟩
  · exact absurd rfl hr
  · rw [hd] at hd1
    simp at hd1
    subst hd1
    have hdir : (gpio_run k1.trace g d.pin).dir = Direction.output := by
      rw [htr, gpio_run_concat]
      cases hp : d.enable_external_pullup <;>
        simp [attach_calls, configure_call, hod, pullup_calls, hp, gpio_run, gpio_apply]
    refine ⟨hdir, _, run_bit_ops_open_drain env1 _ _ d hod ops k1 hm1 hd, rfl, ?_, ?_⟩
    · show (gpio_run (k1.trace ++ ops.map (BitOp.open_drain_call env1 d.pin)) g d.pin).dir = _
      rw [gpio_run_concat, open_drain_calls_dir, hdir]
    · intro bit hlast
      show (gpio_run (k1.trace ++ ops.map (BitOp.open_drain_call env1 d.pin)) g d.pin).value = _
      obtain ⟨init, hinit⟩ : ∃ init, ops = init ++ [BitOp.write_bit bit] := by
        rcases List.eq_nil_or_concat ops with h | ⟨init, x, h⟩
        · subst h; simp at hlast
        · subst h
          simp at hlast
          subst hlast
          exact ⟨init, by simp⟩
      rw [hinit, gpio_run_concat, open_drain_calls_value]

/-! ## Attach followed by detach -/

theorem parsed_parsed (env : Env) (d0 : w1_gpio_platform_data) :
    parsed env (parsed env d0) = parsed env d0 := rfl

theorem attach_detach_run {env : Env} {k : Kernel} {d0 : w1_gpio_platform_data}
    (hcfg : config_available env k d0) (hread : config_readable env)
    (hmaster : env.kzalloc_master = true)
    (hreq : env.gpio_request (u32 (env.of_property_read_u32 "qcom,gpio-pin").2) = 0)
    (hadd : ∀ m, env.w1_add_master_device m = 0) :
    ∃ k2, attach_detach env k = some k2 ∧
      k2.trace = k.trace ++ (attach_calls k.config_addr (parsed env d0) ++
        detach_calls (bound_master k.config_addr (parsed env d0)) (parsed env d0)) ∧
      config_available env k2 (parsed env d0) ∧ k2.config_addr = k.config_addr := by
  obtain ⟨k1, hk1, -, hok⟩ := probe_run hcfg hread hmaster hreq
  have h0 := hadd (bound_master k.config_addr (parsed env d0))
  rw [h0] at hk1
  obtain ⟨htr, hpd, hd, hm, ha0, halt, hlt⟩ := hok h0
  have hd1 : k1.pdata k1.platform_data = some (parsed env d0) := by rw [hpd]; exact hd
  obtain ⟨k2, hk2, htr2, hd2, hpd2, hbrk2⟩ := remove_run hd1 hm
  refine ⟨k2, ?_, ?_, ?_, ?_⟩
  · simp [attach_detach, hk1, hk2]
  · rw [htr2, htr]
    simp
  · refine ⟨?_, Or.inr ⟨?_, ?_, ?_⟩⟩
    · rw [hbrk2]; omega
    · rw [hpd2, hpd]; exact ha0
    · rw [hpd2, hpd, hbrk2]; omega
    · rw [hpd2]; exact hd2
  · have h3 : k2.platform_data ≠ 0 := by rw [hpd2, hpd]; exact ha0
    have h4 : k2.config_addr = k2.platform_data := by
      unfold Kernel.config_addr
      rw [if_neg h3]
    rw [h4, hpd2, hpd]

theorem attach_detach_times_run {env : Env} (hread : config_readable env)
    (hmaster : env.kzalloc_master = true)
    (hreq : env.gpio_request (u32 (env.of_property_read_u32 "qcom,gpio-pin").2) = 0)
    (hadd : ∀ m, env.w1_add_master_device m = 0) (n : Nat) :
    ∀ (k : Kernel) (d0 : w1_gpio_platform_data), config_available env k d0 →
      ∃ k1, attach_detach_times env n k = some k1 ∧
        k1.trace = k.trace ++ round_trip_calls k.config_addr (parsed env d0) n := by
  induction n with
  | zero => intro k d0 _; exact ⟨k, rfl, by simp [round_trip_calls]⟩
  | succ n ih =>
    intro k d0 hcfg
    obtain ⟨k2, hk2, htr2, hcfg2, ha2⟩ := attach_detach_run hcfg hread hmaster hreq hadd
    obtain ⟨k3, hk3, htr3⟩ := ih k2 (parsed env d0) hcfg2
    refine ⟨k3, ?_, ?_⟩
    · simp [attach_detach_times, hk2, hk3]
    · rw [htr3, htr2, ha2, parsed_parsed]
      simp [round_trip_calls]

theorem request_count_append (gpio : Nat) (a b : List Event) :
    request_count gpio (a ++ b) = request_count gpio a + request_count gpio b := by
  simp [request_count, List.countP_append]

theorem free_count_append (gpio : Nat) (a b : List Event) :
    free_count gpio (a ++ b) = free_count gpio a + free_count gpio b := by
  simp [free_count, List.countP_append]

theorem pin_counter_append (gpio : Nat) (a b : List Event) (held : Nat) :
    pin_counter gpio (a ++ b) held = b.foldl (pin_counter_step gpio) (pin_counter gpio a held) := by
  simp [pin_counter, List.foldl_append]

theorem pin_counter_none (gpio : Nat) (b : List Event) :
    b.foldl (pin_counter_step gpio) none = none := by
  induction b with
  | nil => rfl
  | cons e rest ih =>
    rw [List.foldl_cons]
    have : pin_counter_step gpio none e = none := by
      cases e <;> simp [pin_counter_step]
    rw [this, ih]

theorem round_calls_request_count (a : Nat) (d : w1_gpio_platform_data) :
    request_count d.pin (attach_calls a d ++ detach_calls (bound_master a d) d) = 1 := by
  cases hp : d.enable_external_pullup <;> by_cases hod : d.is_open_drain = 0 <;>
    simp [request_count, attach_calls, detach_calls, configure_call, pullup_calls, hp, hod]

theorem round_calls_free_count (a : Nat) (d : w1_gpio_platform_data) :
    free_count d.pin (attach_calls a d ++ detach_calls (bound_master a d) d) = 1 := by
  cases hp : d.enable_external_pullup <;> by_cases hod : d.is_open_drain = 0 <;>
    simp [free_count, attach_calls, detach_calls, configure_call, pullup_calls, hp, hod]

theorem round_calls_pin_counter (a : Nat) (d : w1_gpio_platform_data) (held : Nat) :
    pin_counter d.pin (attach_calls a d ++ detach_calls (bound_master a d) d) held =
      some held := by
  cases hp : d.enable_external_pullup <;> by_cases hod : d.is_open_drain = 0 <;>
    simp [pin_counter, pin_counter_step, attach_calls, detach_calls, configure_call,
      pullup_calls, hp, hod]

theorem round_trip_counts (a : Nat) (d : w1_gpio_platform_data) (n held : Nat) :
    request_count d.pin (round_trip_calls a d n) = n ∧
      free_count d.pin (round_trip_calls a d n) = n ∧
      pin_counter d.pin (round_trip_calls a d n) held = some held := by
  induction n with
  | zero => simp [round_trip_calls, request_count, free_count, pin_counter]
  | succ n ih =>
    obtain ⟨h1, h2, h3⟩ := ih
    refine ⟨?_, ?_, ?_⟩
    · rw [round_trip_calls, request_count_append, round_calls_request_count, h1]
      omega
    · rw [round_trip_calls, free_count_append, round_calls_free_count, h2]
      omega
    · rw [round_trip_calls, pin_counter_append, round_calls_pin_counter]
      exact h3

/-- C9: for every valid configuration (attach can obtain its configuration
record, both keys are readable, the handle allocation, the pin request and the
registration succeed) and every `n`, attach immediately followed by detach,
`n` times, runs to completion; the calls made are `n` copies of the calls of a
successful attach followed by the calls of detach; among them the number of
`gpio_request` calls on the pin and the number of `gpio_free` calls on the pin
are both `n`; the resource counter of the pin ends where it started, and at no
point of the sequence is the pin released while the counter is zero. -/
theorem attach_detach_balanced (env : Env) (k : Kernel) (d0 : w1_gpio_platform_data)
    (n held : Nat)
    (hcfg : config_available env k d0) (hread : config_readable env)
    (hmaster : env.kzalloc_master = true)
    (hreq : env.gpio_request (u32 (env.of_property_read_u32 "qcom,gpio-pin").2) = 0)
    (hadd : ∀ m, env.w1_add_master_device m = 0) :
    ∃ k1, attach_detach_times env n k = some k1 ∧
      k1.trace = k.trace ++ round_trip_calls k.config_addr (parsed env d0) n ∧
      request_count (parsed env d0).pin (round_trip_calls k.config_addr (parsed env d0) n) = n ∧
      free_count (parsed env d0).pin (round_trip_calls k.config_addr (parsed env d0) n) = n ∧
      pin_counter (parsed env d0).pin (round_trip_calls k.config_addr (parsed env d0) n) held =
        some held ∧
      ∀ pre suf, round_trip_calls k.config_addr (parsed env d0) n = pre ++ suf →
        pin_counter (parsed env d0).pin pre held ≠ none := by
  obtain ⟨k1, hk1, htr⟩ := attach_detach_times_run hread hmaster hreq hadd n k d0 hcfg
  obtain ⟨h1, h2, h3⟩ := round_trip_counts k.config_addr (parsed env d0) n held
  refine ⟨k1, hk1, htr, h1, h2, h3, ?_⟩
  intro pre suf hsplit hnone
  rw [hsplit, pin_counter_append, hnone, pin_counter_none] at h3
  simp at h3

/-! ## The lifecycle invariant -/

theorem registered_append (tr evs : List Event) :
    registered (tr ++ evs) = evs.foldl registered_step (registered tr) := by
  simp [registered, List.foldl_append]

theorem pins_held_append (tr evs : List Event) :
    pins_held (tr ++ evs) = evs.foldl pins_held_step (pins_held tr) := by
  simp [pins_held, List.foldl_append]

theorem pullup_calls_registered (d : w1_gpio_platform_data) (n : Int)
    (acc : List w1_bus_master) :
    (pullup_calls d n).foldl registered_step acc = acc := by
  cases hp : d.enable_external_pullup <;> simp [pullup_calls, hp, registered_step]

theorem pullup_calls_pins_held (d : w1_gpio_platform_data) (n : Int) (acc : List Nat) :
    (pullup_calls d n).foldl pins_held_step acc = acc := by
  cases hp : d.enable_external_pullup <;> simp [pullup_calls, hp, pins_held_step]

theorem configure_call_cases (d : w1_gpio_platform_data) :
    configure_call d = Event.gpio_direction_output d.pin 1 ∨
      configure_call d = Event.gpio_direction_input d.pin := by
  by_cases hod : d.is_open_drain = 0 <;> simp [configure_call, hod]

theorem probe_preserves_inv {env : Env} {r : Int} {k k1 : Kernel}
    (hreg : registered k.trace = []) (hheld : pins_held k.trace = [])
    (h : w1_gpio_probe env k = some (r, k1)) :
    lifecycle_inv (if r = 0 then Lifecycle.Active else Lifecycle.Unattached, k1) := by
  rcases probe_inv h with ⟨hr, hcase⟩ | ⟨hr, d, hd, hm, htr⟩
  · rw [if_neg hr]
    rcases hcase with h1 | ⟨p, h1⟩ | ⟨d, a, h1⟩
    · exact ⟨by rw [h1]; exact hreg, by rw [h1]; exact hheld⟩
    · refine ⟨?_, ?_⟩
      · rw [h1, registered_append, hreg]
        simp [registered_step]
      · rw [h1, pins_held_append, hheld]
        simp [pins_held_step, hr]
    · refine ⟨?_, ?_⟩
      · rw [h1, registered_append, hreg]
        rcases configure_call_cases d with hc | hc <;>
          simp [List.foldl, hc, registered_step, hr]
      · rw [h1, pins_held_append, hheld]
        rcases configure_call_cases d with hc | hc <;>
          simp [List.foldl, hc, pins_held_step]
  · rw [if_pos hr]
    refine ⟨d, _, hd, hm, ?_, ?_⟩
    · rw [htr, registered_append, hreg, attach_calls, List.foldl_append,
        pullup_calls_registered]
      rcases configure_call_cases d with hc | hc <;>
        simp [List.foldl, hc, registered_step]
    · rw [htr, pins_held_append, hheld, attach_calls, List.foldl_append,
        pullup_calls_pins_held]
      rcases configure_call_cases d with hc | hc <;>
        simp [List.foldl, hc, pins_held_step]

theorem remove_restores_inv {k : Kernel} {r : Int × Kernel}
    (hinv : ∃ d m, k.pdata k.platform_data = some d ∧ k.master k.driver_data = some m ∧
      registered k.trace = [m] ∧ pins_held k.trace = [d.pin])
    (h : w1_gpio_remove k = some r) :
    lifecycle_inv (Lifecycle.Unattached, r.2) := by
  obtain ⟨r1, k1⟩ := r
  obtain ⟨d, m, hd, hm, hreg, hheld⟩ := hinv
  obtain ⟨-, d1, m1, hd1, hm1, htr⟩ := remove_inv h
  rw [hd] at hd1
  rw [hm] at hm1
  simp at hd1 hm1
  subst hd1 hm1
  refine ⟨?_, ?_⟩
  · show registered k1.trace = []
    rw [htr, registered_append, hreg]
    simp [detach_calls, List.foldl_append, pullup_calls_registered, registered_step]
  · show pins_held k1.trace = []
    rw [htr, pins_held_append, hheld]
    simp [detach_calls, List.foldl_append, pullup_calls_pins_held, pins_held_step]

theorem pullup_keeps_inv {k : Kernel} (d0 : w1_gpio_platform_data) (n : Int)
    (hinv : ∃ d m, k.pdata k.platform_data = some d ∧ k.master k.driver_data = some m ∧
      registered k.trace = [m] ∧ pins_held k.trace = [d.pin]) :
    ∃ d m, (enable_external_pullup d0 n k).pdata (enable_external_pullup d0 n k).platform_data =
        some d ∧
      (enable_external_pullup d0 n k).master (enable_external_pullup d0 n k).driver_data =
        some m ∧
      registered (enable_external_pullup d0 n k).trace = [m] ∧
      pins_held (enable_external_pullup d0 n k).trace = [d.pin] := by
  obtain ⟨d, m, hd, hm, hreg, hheld⟩ := hinv
  refine ⟨d, m, by simpa using hd, by simpa using hm, ?_, ?_⟩
  · rw [pullup_trace, registered_append, hreg, pullup_calls_registered]
  · rw [pullup_trace, pins_held_append, hheld, pullup_calls_pins_held]

theorem lifecycle_step_inv {op : Op} {s s1 : Lifecycle × Kernel}
    (hinv : lifecycle_inv s) (h : lifecycle_step op s = some s1) : lifecycle_inv s1 := by
  obtain ⟨ls, k⟩ := s
  cases op with
  | attach env =>
    cases ls with
    | Unattached =>
      simp only [lifecycle_step] at h
      split at h
      · simp at h
      · rename_i err k1 hp
        simp at h
        rw [← h]
        exact probe_preserves_inv hinv.1 hinv.2 hp
    | Active => simp [lifecycle_step] at h
    | Suspended => simp [lifecycle_step] at h
  | detach =>
    cases ls with
    | Unattached => simp [lifecycle_step] at h
    | Active =>
      simp only [lifecycle_step] at h
      split at h
      · simp at h
      · rename_i r hr
        simp at h
        rw [← h]
        exact remove_restores_inv hinv hr
    | Suspended =>
      simp only [lifecycle_step] at h
      split at h
      · simp at h
      · rename_i r hr
        simp at h
        rw [← h]
        exact remove_restores_inv hinv hr
  | suspend =>
    cases ls with
    | Unattached => simp [lifecycle_step] at h
    | Active =>
      simp only [lifecycle_step, w1_gpio_suspend] at h
      split at h
      · simp at h
      · rename_i r hr
        split at hr
        · simp at hr
        · rename_i d0 hd0
          simp at hr h
          rw [← h, ← hr]
          exact pullup_keeps_inv d0 0 hinv
    | Suspended => simp [lifecycle_step] at h
  | resume =>
    cases ls with
    | Unattached => simp [lifecycle_step] at h
    | Active => simp [lifecycle_step] at h
    | Suspended =>
      simp only [lifecycle_step, w1_gpio_resume] at h
      split at h
      · simp at h
      · rename_i r hr
        split at hr
        · simp at hr
        · rename_i d0 hd0
          simp at hr h
          rw [← h, ← hr]
          exact pullup_keeps_inv d0 1 hinv

theorem lifecycle_run_inv (ops : List Op) :
    ∀ s s1 : Lifecycle × Kernel, lifecycle_inv s → lifecycle_run ops s = some s1 →
      lifecycle_inv s1 := by
  induction ops with
  | nil =>
    intro s s1 hinv h
    simp [lifecycle_run] at h
    rw [← h]
    exact hinv
  | cons op rest ih =>
    intro s s1 hinv h
    simp only [lifecycle_run] at h
    split at h
    · simp at h
    · rename_i s2 hs2
      exact ih s2 s1 (lifecycle_step_inv hinv hs2) h

/-- C10: in every state reached from `Unattached` (no handle registered, no
pin held) by lifecycle operations used as the state machine allows (attach,
successful or failed, suspend, resume, detach), once the operation has
returned, a handle is registered with the protocol engine if and only if the
adapter holds a pin: in `Unattached` (initially, after a failed attach, after
detach) neither holds; in `Active` and `Suspended` exactly the live handle is
registered and exactly the pin of the live configuration record is held. -/
theorem registered_iff_pin_held (ops : List Op) (k0 k : Kernel) (ls : Lifecycle)
    (hreg : registered k0.trace = []) (hheld : pins_held k0.trace = [])
    (hrun : lifecycle_run ops (Lifecycle.Unattached, k0) = some (ls, k)) :
    (registered k.trace ≠ [] ↔ pins_held k.trace ≠ []) ∧
    (ls = Lifecycle.Unattached → registered k.trace = [] ∧ pins_held k.trace = []) ∧
    (ls ≠ Lifecycle.Unattached →
      ∃ d m, k.pdata k.platform_data = some d ∧ k.master k.driver_data = some m ∧
        registered k.trace = [m] ∧ pins_held k.trace = [d.pin]) := by
  have hinv : lifecycle_inv (ls, k) :=
    lifecycle_run_inv ops _ _ (show lifecycle_inv (Lifecycle.Unattached, k0) from ⟨hreg, hheld⟩)
      hrun
  cases ls with
  | Unattached =>
    obtain ⟨h1, h2⟩ := hinv
    exact ⟨by simp [h1, h2], fun _ => ⟨h1, h2⟩, fun h => absurd rfl h⟩
  | Active =>
    obtain ⟨d, m, hd, hm, h1, h2⟩ := hinv
    exact ⟨by simp [h1, h2], fun h => by simp at h, fun _ => ⟨d, m, hd, hm, h1, h2⟩⟩
  | Suspended =>
    obtain ⟨d, m, hd, hm, h1, h2⟩ := hinv
    exact ⟨by simp [h1, h2], fun h => by simp at h, fun _ => ⟨d, m, hd, hm, h1, h2⟩⟩

/-! ## The theorems at sample inputs -/

theorem w1_gpio_write_bit_dir_contract_witness :
    attached_dir.pdata 1 =
        some { pin := 5, is_open_drain := 0, enable_external_pullup := false } ∧
      w1_gpio_write_bit_dir 1 1 attached_dir =
        some { attached_dir with
          trace := attached_dir.trace ++ [Event.gpio_direction_input 5] } ∧
      w1_gpio_write_bit_dir 1 0 attached_dir =
        some { attached_dir with
          trace := attached_dir.trace ++ [Event.gpio_direction_output 5 0] } := by
  refine ⟨by decide, ?_, ?_⟩
  · obtain ⟨k1, h1, h2, -⟩ := w1_gpio_write_bit_dir_contract attached_dir 1
      { pin := 5, is_open_drain := 0, enable_external_pullup := false } 1 pins_idle (by decide)
    rw [h1, (h2 (by decide)).1]
  · obtain ⟨k1, h1, -, h2, -⟩ := w1_gpio_write_bit_dir_contract attached_dir 1
      { pin := 5, is_open_drain := 0, enable_external_pullup := false } 0 pins_idle (by decide)
    rw [h1, (h2 rfl).1]

theorem open_drain_direction_fixed_witness :
    w1_gpio_probe (sample_env 1) boot = some (0, attached_val) ∧
      attached_val.pdata attached_val.platform_data =
        some { pin := 5, is_open_drain := 1, enable_external_pullup := false } ∧
      (gpio_run attached_val.trace pins_idle 5).dir = Direction.output ∧
      run_bit_ops (sample_env 1) attached_val.driver_data
          [BitOp.write_bit 0, BitOp.write_bit 1, BitOp.read_bit] attached_val =
        some { attached_val with
          trace := attached_val.trace ++
            [Event.gpio_set_value 5 0, Event.gpio_set_value 5 1, Event.gpio_get_value 5 1] } := by
  have h := open_drain_direction_fixed (sample_env 1) (sample_env 1) boot attached_val
    { pin := 5, is_open_drain := 1, enable_external_pullup := false }
    [BitOp.write_bit 0, BitOp.write_bit 1, BitOp.read_bit] pins_idle
    (by decide) (by decide) (by decide)
  obtain ⟨h1, k2, h2, h3, -⟩ := h
  refine ⟨by decide, by decide, h1, ?_⟩
  rw [h2, h3]
  rfl

theorem w1_gpio_probe_success_witness :
    config_available (sample_env 1) board
        { pin := 0, is_open_drain := 0, enable_external_pullup := true } ∧
      config_readable (sample_env 1) ∧
      w1_gpio_probe (sample_env 1) board = some (0, attached_board) ∧
      attached_board.trace =
        [Event.gpio_request 5 0, Event.gpio_direction_output 5 1,
          Event.w1_add_master_device
            { data := 1, read_bit := some read_bit_fn.w1_gpio_read_bit,
              write_bit := some write_bit_fn.w1_gpio_write_bit_val } 0,
          Event.enable_external_pullup 1] := by
  obtain ⟨k1, h1, h2, -⟩ := w1_gpio_probe_success (sample_env 1) board
    { pin := 0, is_open_drain := 0, enable_external_pullup := true }
    (by decide) (by decide) rfl (by decide) (fun _ => rfl)
  have hk : k1 = attached_board := by
    have h3 : w1_gpio_probe (sample_env 1) board = some (0, attached_board) := by decide
    rw [h1] at h3
    simpa using h3
  subst hk
  refine ⟨by decide, by decide, h1, ?_⟩
  rw [h2]
  decide

theorem w1_gpio_probe_registration_failure_witness :
    config_available refusing_env boot zeroed_pdata ∧ config_readable refusing_env ∧
      ∃ k1, w1_gpio_probe refusing_env boot = some (-5, k1) ∧
        k1.trace =
          [Event.gpio_request 5 0, Event.gpio_direction_output 5 1,
            Event.w1_add_master_device (sample_master write_bit_fn.w1_gpio_write_bit_val) (-5),
            Event.gpio_free 5] := by
  obtain ⟨k1, h1, h2, -⟩ := w1_gpio_probe_registration_failure refusing_env boot zeroed_pdata
    (-5) (by decide) (by decide) rfl (by decide) (by decide) (by decide)
  refine ⟨by decide, by decide, k1, h1, ?_⟩
  rw [h2]
  decide

theorem w1_gpio_probe_config_error_witness :
    ¬ config_readable missing_key_env ∧ config_available missing_key_env boot zeroed_pdata ∧
      ∃ k1, w1_gpio_probe missing_key_env boot = some (-22, k1) ∧ k1.trace = [] := by
  obtain ⟨k1, h1, -, h3, -⟩ :=
    (w1_gpio_probe_config_error missing_key_env boot (by decide)).2 zeroed_pdata (by decide)
  exact ⟨by decide, by decide, k1, h1, h3⟩

theorem w1_gpio_remove_sequence_witness :
    attached_board.pdata attached_board.platform_data =
        some { pin := 5, is_open_drain := 1, enable_external_pullup := true } ∧
      attached_board.master attached_board.driver_data =
        some (sample_master write_bit_fn.w1_gpio_write_bit_val) ∧
      ∃ k1, w1_gpio_remove attached_board = some (0, k1) ∧
        k1.trace = attached_board.trace ++
          [Event.enable_external_pullup 0,
            Event.w1_remove_master_device (sample_master write_bit_fn.w1_gpio_write_bit_val),
            Event.gpio_free 5] := by
  obtain ⟨k1, h1, h2⟩ := w1_gpio_remove_sequence attached_board
    { pin := 5, is_open_drain := 1, enable_external_pullup := true }
    (sample_master write_bit_fn.w1_gpio_write_bit_val) (by decide) (by decide)
  exact ⟨by decide, by decide, k1, h1, h2⟩

theorem w1_gpio_suspend_resume_trace_witness :
    attached_board.pdata attached_board.platform_data =
        some { pin := 5, is_open_drain := 1, enable_external_pullup := true } ∧
      ∃ k1 k2, w1_gpio_suspend attached_board = some (0, k1) ∧
        w1_gpio_resume k1 = some (0, k2) ∧
        k2 = { attached_board with
          trace := attached_board.trace ++
            [Event.enable_external_pullup 0, Event.enable_external_pullup 1] } := by
  obtain ⟨k1, k2, h1, h2, h3⟩ := w1_gpio_suspend_resume_trace attached_board
    { pin := 5, is_open_drain := 1, enable_external_pullup := true } (by decide)
  exact ⟨by decide, k1, k2, h1, h2, h3⟩

theorem attach_detach_balanced_witness :
    config_available (sample_env 0) boot zeroed_pdata ∧ config_readable (sample_env 0) ∧
      ∃ k1, attach_detach_times (sample_env 0) 3 boot = some k1 ∧
        request_count 5 k1.trace = 3 ∧ free_count 5 k1.trace = 3 ∧
        pin_counter 5 k1.trace 0 = some 0 := by
  obtain ⟨k1, h1, h2, h3, h4, h5, -⟩ := attach_detach_balanced (sample_env 0) boot zeroed_pdata
    3 0 (by decide) (by decide) rfl (by decide) (fun _ => rfl)
  refine ⟨by decide, by decide, k1, h1, ?_, ?_, ?_⟩
  · rw [h2]; exact h3
  · rw [h2]; exact h4
  · rw [h2]; exact h5

theorem registered_iff_pin_held_witness :
    registered board.trace = [] ∧ pins_held board.trace = [] ∧
      lifecycle_run [Op.attach (sample_env 1), Op.suspend, Op.resume, Op.suspend]
          (Lifecycle.Unattached, board) = some (Lifecycle.Suspended, suspended_board) ∧
      registered suspended_board.trace = [sample_master write_bit_fn.w1_gpio_write_bit_val] ∧
      pins_held suspended_board.trace = [5] := by
  obtain ⟨-, -, h3⟩ := registered_iff_pin_held
    [Op.attach (sample_env 1), Op.suspend, Op.resume, Op.suspend] board suspended_board
    Lifecycle.Suspended (by decide) (by decide) (by decide)
  obtain ⟨d, m, hd, hm, hreg, hheld⟩ := h3 (by decide)
  have hd1 : d = { pin := 5, is_open_drain := 1, enable_external_pullup := true } := by
    have h : suspended_board.pdata suspended_board.platform_data =
        some { pin := 5, is_open_drain := 1, enable_external_pullup := true } := by decide
    rw [hd] at h
    simpa using h
  have hm1 : m = sample_master write_bit_fn.w1_gpio_write_bit_val := by
    have h : suspended_board.master suspended_board.driver_data =
        some (sample_master write_bit_fn.w1_gpio_write_bit_val) := by decide
    rw [hm] at h
    simpa using h
  subst hd1 hm1
  exact ⟨by decide, by decide, by decide, hreg, hheld⟩

end W1Gpio
